import Mathlib

/-!
Verification of the noodleos memory subsystem against its specification.

The definitions below are a shallow embedding of the Rust sources:
  - `src/arch/x86_64/memory/paging.rs`   (flags, entries, addresses, tables)
  - `src/arch/x86_64/memory/physical.rs` (bitmap frame allocator)
  - `src/arch/x86_64/memory/mapper.rs`   (4-level page-table walker)
  - `src/arch/x86_64/boot/multiboot2.rs` (memory-map tag parsing)

Machine integers (`u64`, `usize`, `u8`) are embedded as `Nat`; wrapping
arithmetic is made explicit via `% USIZE` where the source type could wrap.
Rust code that panics (a failed `assert!`) is embedded as `Option`.
-/

namespace NoodleOS

/-- Width modulus of `u64`/`usize` on x86_64. -/
def USIZE : Nat := 2 ^ 64

/-- Wrapping `usize` addition (`AtomicUsize::fetch_add`, pointer adds). -/
def usizeAdd (x n : Nat) : Nat := (x + n) % USIZE

/-- Wrapping `usize` subtraction for a subtrahend `n ≤ USIZE`
(`AtomicUsize::fetch_sub`). -/
def usizeSub (x n : Nat) : Nat := (x + USIZE - n) % USIZE

/-- `PAGE_SIZE` from `memory/constants`. -/
def PAGE_SIZE : Nat := 4096

/-- `PageTableFlags` (paging.rs): a transparent wrapper around a `u64`. -/
structure PageTableFlags where
  bits : Nat
  deriving DecidableEq

namespace PageTableFlags

/-- `PRESENT = 1 << 0`. -/
def PRESENT : PageTableFlags := ⟨1 <<< 0⟩

/-- `WRITABLE = 1 << 1`. -/
def WRITABLE : PageTableFlags := ⟨1 <<< 1⟩

/-- `USER_ACCESSIBLE = 1 << 2`. -/
def USER_ACCESSIBLE : PageTableFlags := ⟨1 <<< 2⟩

/-- `WRITE_THROUGH = 1 << 3`. -/
def WRITE_THROUGH : PageTableFlags := ⟨1 <<< 3⟩

/-- `NO_CACHE = 1 << 4`. -/
def NO_CACHE : PageTableFlags := ⟨1 <<< 4⟩

/-- `ACCESSED = 1 << 5`. -/
def ACCESSED : PageTableFlags := ⟨1 <<< 5⟩

/-- `DIRTY = 1 << 6`. -/
def DIRTY : PageTableFlags := ⟨1 <<< 6⟩

/-- `HUGE_PAGE = 1 << 7`. -/
def HUGE_PAGE : PageTableFlags := ⟨1 <<< 7⟩

/-- `GLOBAL = 1 << 8`. -/
def GLOBAL : PageTableFlags := ⟨1 <<< 8⟩

/-- `NO_EXECUTE = 1 << 63`. -/
def NO_EXECUTE : PageTableFlags := ⟨1 <<< 63⟩

/-- `PageTableFlags::empty`. -/
def empty : PageTableFlags := ⟨0⟩

/-- `PageTableFlags::contains`: `(self.0 & other.0) == other.0`. -/
def contains (s o : PageTableFlags) : Bool := (s.bits &&& o.bits) == o.bits

/-- `PageTableFlags::union`: `Self(self.0 | other.0)`. -/
def union (s o : PageTableFlags) : PageTableFlags := ⟨s.bits ||| o.bits⟩

end PageTableFlags

/-- `PhysAddr` (paging.rs): a transparent wrapper around a `u64`. -/
structure PhysAddr where
  val : Nat
  deriving DecidableEq

namespace PhysAddr

/-- `PhysAddr::new`. -/
def new (addr : Nat) : PhysAddr := ⟨addr⟩

/-- `PhysAddr::is_aligned`: `self.0 % align as u64 == 0`. -/
def is_aligned (a : PhysAddr) (align : Nat) : Bool := a.val % align == 0

/-- `PhysAddr::align_down`: `self.0 & !(align - 1)`; on `u64` the mask
`!(align - 1)` is `2^64 - align` (for `align ≥ 1`). -/
def align_down (a : PhysAddr) (align : Nat) : PhysAddr :=
  ⟨a.val &&& (USIZE - align)⟩

/-- `PhysAddr::align_up`: `(self.0 + align - 1) & !(align - 1)` with the
`u64` addition wrapping. -/
def align_up (a : PhysAddr) (align : Nat) : PhysAddr :=
  ⟨((a.val + align - 1) % USIZE) &&& (USIZE - align)⟩

/-- `PhysAddr::as_u64`. -/
def as_u64 (a : PhysAddr) : Nat := a.val

end PhysAddr

/-- `PageTableLevel` (paging.rs), `#[repr(u8)]` with values 1..4. -/
inductive PageTableLevel where
  | One
  | Two
  | Three
  | Four
  deriving DecidableEq

/-- The `level as usize` cast (the `repr` discriminant). -/
def PageTableLevel.toNat : PageTableLevel → Nat
  | .One => 1
  | .Two => 2
  | .Three => 3
  | .Four => 4

/-- `VirtAddr` (paging.rs): a transparent wrapper around a `u64`. -/
structure VirtAddr where
  val : Nat
  deriving DecidableEq

namespace VirtAddr

/-- `VirtAddr::new_unchecked`. -/
def new_unchecked (addr : Nat) : VirtAddr := ⟨addr⟩

/-- `VirtAddr::is_aligned`. -/
def is_aligned (a : VirtAddr) (align : Nat) : Bool := a.val % align == 0

/-- `VirtAddr::align_down`: `self.0 & !(align - 1)` on `u64`. -/
def align_down (a : VirtAddr) (align : Nat) : VirtAddr :=
  ⟨a.val &&& (USIZE - align)⟩

/-- `VirtAddr::align_up`. -/
def align_up (a : VirtAddr) (align : Nat) : VirtAddr :=
  ⟨((a.val + align - 1) % USIZE) &&& (USIZE - align)⟩

/-- `VirtAddr::as_u64`. -/
def as_u64 (a : VirtAddr) : Nat := a.val

/-- `VirtAddr::page_table_index`:
`let shift = 12 + (level as usize - 1) * 9; ((self.0 >> shift) & 0x1FF) as usize`. -/
def page_table_index (a : VirtAddr) (level : PageTableLevel) : Nat :=
  (a.val >>> (12 + (level.toNat - 1) * 9)) &&& 0x1FF

/-- `VirtAddr::page_offset`: `(self.0 & 0xFFF) as usize`. -/
def page_offset (a : VirtAddr) : Nat := a.val &&& 0xFFF

end VirtAddr

/-- `PageTableEntry` (paging.rs): a transparent wrapper around a `u64`. -/
structure PageTableEntry where
  entry : Nat
  deriving DecidableEq

/-- `PhysFrame` (paging.rs). -/
structure PhysFrame where
  start_address : PhysAddr
  deriving DecidableEq

/-- `PhysFrame::containing_address`: aligns down to `PAGE_SIZE`. -/
def PhysFrame.containing_address (addr : PhysAddr) : PhysFrame :=
  ⟨addr.align_down PAGE_SIZE⟩

/-- `PhysFrame::number`. -/
def PhysFrame.number (f : PhysFrame) : Nat := f.start_address.val / PAGE_SIZE

namespace PageTableEntry

/-- `PageTableEntry::new`: the zero entry. -/
def new : PageTableEntry := ⟨0⟩

/-- `PageTableEntry::is_unused`: `self.entry == 0`. -/
def is_unused (e : PageTableEntry) : Bool := e.entry == 0

/-- `PageTableEntry::flags`: `PageTableFlags(self.entry & 0xFFF)`. -/
def flags (e : PageTableEntry) : PageTableFlags := ⟨e.entry &&& 0xFFF⟩

/-- `PageTableEntry::addr`: `PhysAddr(self.entry & 0x000F_FFFF_FFFF_F000)`. -/
def addr (e : PageTableEntry) : PhysAddr := ⟨e.entry &&& 0x000FFFFFFFFFF000⟩

/-- `PageTableEntry::frame`: `PhysFrame::containing_address(self.addr())`. -/
def frame (e : PageTableEntry) : PhysFrame := PhysFrame.containing_address e.addr

/-- `PageTableEntry::set_addr`: asserts `addr.is_aligned(PAGE_SIZE)` (a panic,
embedded as `none`) and stores `addr.0 | flags.bits()`.  The previous entry
value is overwritten, so the result does not depend on it. -/
def set_addr (addr : PhysAddr) (flags : PageTableFlags) : Option PageTableEntry :=
  if addr.is_aligned PAGE_SIZE then some ⟨addr.val ||| flags.bits⟩ else none

/-- `PageTableEntry::set_flags`: `self.entry = self.addr().0 | flags.bits()`. -/
def set_flags (e : PageTableEntry) (flags : PageTableFlags) : PageTableEntry :=
  ⟨e.addr.val ||| flags.bits⟩

end PageTableEntry

/-- `Page` (paging.rs). -/
structure Page where
  start_address : VirtAddr
  deriving DecidableEq

/-- `Page::containing_address`. -/
def Page.containing_address (addr : VirtAddr) : Page :=
  ⟨addr.align_down PAGE_SIZE⟩

/-- `PageTable` (paging.rs): 512 entries.  The source indexes it with the
9-bit results of `page_table_index`, which are always `< 512`. -/
structure PageTable where
  entries : Fin 512 → PageTableEntry

/-- Array indexing `table[index]`; indices reaching this function come from
`page_table_index` and are `< 512` (out of range would panic in Rust and is
mapped to the zero entry here, but is never exercised). -/
def PageTable.get (t : PageTable) (i : Nat) : PageTableEntry :=
  if h : i < 512 then t.entries ⟨i, h⟩ else PageTableEntry.new

/-- Writing `table[index] = e` through `IndexMut`. -/
def PageTable.setEntry (t : PageTable) (i : Nat) (e : PageTableEntry) : PageTable :=
  ⟨fun j => if j.val = i then e else t.entries j⟩

/- ------------------------------------------------------------------ -/
/- Claim C7: page-table index decomposition of 0xFFFF_8000_1234_5678. -/
/- ------------------------------------------------------------------ -/

/-- Claim C7, counterexample: the spec (and the repository's own test
`test_address_translation_indices`) expects `index(1) = 69` for
`v = 0xFFFF_8000_1234_5678`, but the stated formula
`(addr >> 12) & 0x1FF` yields `0x145 = 325` (the expectation 69 = 0x45
drops bit 20 of the address, the top bit of the 9-bit index). -/
theorem C7_counterexample :
    VirtAddr.page_table_index (VirtAddr.new_unchecked 0xFFFF800012345678) PageTableLevel.One ≠ 69 ∧
    VirtAddr.page_table_index (VirtAddr.new_unchecked 0xFFFF800012345678) PageTableLevel.One = 325 := by
  constructor
  · decide
  · decide

/-- Claim C7 (amended): for `v = 0xFFFF_8000_1234_5678` the page-table index
function `(addr >> (12 + 9·(level−1))) & 0x1FF` yields `index(4) = 256`,
`index(3) = 0`, `index(2) = 145`, `index(1) = 325` (not 69), and
`page_offset() = 0x678`. -/
theorem C7_address_decomposition :
    VirtAddr.page_table_index (VirtAddr.new_unchecked 0xFFFF800012345678) PageTableLevel.Four = 256 ∧
    VirtAddr.page_table_index (VirtAddr.new_unchecked 0xFFFF800012345678) PageTableLevel.Three = 0 ∧
    VirtAddr.page_table_index (VirtAddr.new_unchecked 0xFFFF800012345678) PageTableLevel.Two = 145 ∧
    VirtAddr.page_table_index (VirtAddr.new_unchecked 0xFFFF800012345678) PageTableLevel.One = 325 ∧
    VirtAddr.page_offset (VirtAddr.new_unchecked 0xFFFF800012345678) = 0x678 := by
  refine ⟨by decide, by decide, by decide, by decide, by decide⟩

/- ------------------------------------------------------------------ -/
/- Claim C6: page-table entry round-trip through set_addr.            -/
/- ------------------------------------------------------------------ -/

/-- Claim C6, counterexample: for `f = PRESENT | NO_EXECUTE` and
`p = 0x2000`, the entry built by `set_addr` stores the NO_EXECUTE bit in the
raw word (`0x8000_0000_0000_2001`), but `flags()` masks with `0xFFF` and so
does not return the stored flag bits: it reports only `PRESENT`. -/
theorem C6_counterexample :
    PageTableEntry.set_addr (PhysAddr.new 0x2000)
        (PageTableFlags.PRESENT.union PageTableFlags.NO_EXECUTE) =
      some ⟨0x8000000000002001⟩ ∧
    PageTableEntry.flags ⟨0x8000000000002001⟩ ≠
      PageTableFlags.PRESENT.union PageTableFlags.NO_EXECUTE := by
  exact ⟨by decide, by decide⟩

/-- Claim C6 (amended): for every entry `e` built by `set_addr(p, f)` with
`p` aligned to 4096 and representable in the address field (`p < 2^52`), and
`f` confined to the flag positions (no bits in 12..52), `e.addr()` returns
`p` and `e.flags()` returns the stored flag bits truncated to the low 12
bits — flag bits at positions ≥ 12, such as NO_EXECUTE at bit 63, are stored
in the raw word but are not reported by `flags()`.  The concrete part of the
claim holds: `addr = 0x2000`, `flags = PRESENT|WRITABLE` yields the raw word
`0x2003` with `frame().start_address() = 0x2000` and `is_unused() = false`. -/
theorem C6_entry_roundtrip :
    (∀ p : Nat, ∀ f : PageTableFlags, ∀ e : PageTableEntry,
      p % 4096 = 0 → p < 2 ^ 52 → f.bits &&& 0x000FFFFFFFFFF000 = 0 →
      PageTableEntry.set_addr (PhysAddr.new p) f = some e →
      e.addr = PhysAddr.new p ∧ e.flags.bits = f.bits &&& 0xFFF) ∧
    PageTableEntry.set_addr (PhysAddr.new 0x2000)
        (PageTableFlags.PRESENT.union PageTableFlags.WRITABLE) = some ⟨0x2003⟩ ∧
    PageTableEntry.frame ⟨0x2003⟩ = ⟨PhysAddr.new 0x2000⟩ ∧
    PageTableEntry.is_unused ⟨0x2003⟩ = false := by
  refine ⟨?_, by decide, by decide, by decide⟩
  intro p f e hp h52 hM hset
  have halign : PhysAddr.is_aligned (PhysAddr.new p) PAGE_SIZE = true := by
    simp [PhysAddr.is_aligned, PhysAddr.new, PAGE_SIZE, hp]
  rw [PageTableEntry.set_addr, halign] at hset
  simp only [if_true, Option.some.injEq] at hset
  subst hset
  have hplow : ∀ i, i < 12 → p.testBit i = false := by
    intro i hi
    have h0 : (p % 2 ^ 12).testBit i = false := by
      rw [show (2 : Nat) ^ 12 = 4096 by norm_num, hp]
      exact Nat.zero_testBit i
    rw [Nat.testBit_mod_two_pow] at h0
    simpa [decide_eq_true hi] using h0
  have hphigh : ∀ i, 52 ≤ i → p.testBit i = false := by
    intro i hi
    exact Nat.testBit_lt_two_pow
      (lt_of_lt_of_le h52 (Nat.pow_le_pow_right (by omega) hi))
  have hMlit : (0x000FFFFFFFFFF000 : Nat) = (2 ^ 40 - 1) <<< 12 := by decide
  have hfmid : ∀ i, 12 ≤ i → i < 52 → f.bits.testBit i = false := by
    intro i h1 h2
    have h0 := congrArg (fun x => Nat.testBit x i) hM
    simp only [Nat.testBit_land, Nat.zero_testBit] at h0
    rw [hMlit, Nat.testBit_shiftLeft, Nat.testBit_two_pow_sub_one,
      decide_eq_true (by omega : i ≥ 12),
      decide_eq_true (by omega : i - 12 < 40)] at h0
    simpa using h0
  constructor
  · show PhysAddr.mk _ = _
    rw [PhysAddr.new]
    congr 1
    apply Nat.eq_of_testBit_eq
    intro i
    rw [Nat.testBit_land, Nat.testBit_lor, hMlit, Nat.testBit_shiftLeft,
      Nat.testBit_two_pow_sub_one]
    by_cases h1 : i < 12
    · rw [hplow i h1, decide_eq_false (by omega : ¬ i ≥ 12)]
      simp
    · by_cases h2 : i < 52
      · rw [hfmid i (by omega) h2, decide_eq_true (by omega : i ≥ 12),
          decide_eq_true (by omega : i - 12 < 40)]
        simp
      · rw [hphigh i (by omega), decide_eq_false (by omega : ¬ i - 12 < 40)]
        simp [hphigh i (by omega)]
  · show (PageTableEntry.flags _).bits = _
    rw [PageTableEntry.flags]
    simp only [PhysAddr.new]
    apply Nat.eq_of_testBit_eq
    intro i
    rw [show (0xFFF : Nat) = 2 ^ 12 - 1 by norm_num]
    rw [Nat.testBit_land, Nat.testBit_land, Nat.testBit_lor,
      Nat.testBit_two_pow_sub_one]
    by_cases h1 : i < 12
    · rw [hplow i h1]
      simp
    · rw [decide_eq_false (by omega : ¬ i < 12)]
      simp

/-- Claim C6, witness: the amended round-trip applied at `p = 0x3000`,
`f = PRESENT | NO_EXECUTE` (raw word `0x8000_0000_0000_3001`). -/
theorem C6_witness :
    (0x3000 : Nat) % 4096 = 0 ∧ (0x3000 : Nat) < 2 ^ 52 ∧
    (PageTableFlags.PRESENT.union PageTableFlags.NO_EXECUTE).bits &&&
      0x000FFFFFFFFFF000 = 0 ∧
    PageTableEntry.set_addr (PhysAddr.new 0x3000)
        (PageTableFlags.PRESENT.union PageTableFlags.NO_EXECUTE) =
      some ⟨0x8000000000003001⟩ ∧
    (PageTableEntry.addr ⟨0x8000000000003001⟩ = PhysAddr.new 0x3000 ∧
      (PageTableEntry.flags ⟨0x8000000000003001⟩).bits =
        (PageTableFlags.PRESENT.union PageTableFlags.NO_EXECUTE).bits &&& 0xFFF) :=
  ⟨by decide, by decide, by decide, by decide,
    C6_entry_roundtrip.1 0x3000 (PageTableFlags.PRESENT.union PageTableFlags.NO_EXECUTE)
      ⟨0x8000000000003001⟩ (by decide) (by decide) (by decide) (by decide)⟩

/- ------------------------------------------------------------------ -/
/- physical.rs: the bitmap frame allocator.                           -/
/- ------------------------------------------------------------------ -/

/-- `MAX_PHYSICAL_MEMORY`: 16 GiB. -/
def MAX_PHYSICAL_MEMORY : Nat := 16 * 1024 * 1024 * 1024

/-- `MAX_FRAMES`. -/
def MAX_FRAMES : Nat := MAX_PHYSICAL_MEMORY / PAGE_SIZE

/-- `BITMAP_SIZE`. -/
def BITMAP_SIZE : Nat := MAX_FRAMES / 8

/-- `MemoryType` (multiboot2.rs). -/
inductive MemoryType where
  | Available
  | Reserved
  | AcpiReclaimable
  | Nvs
  | BadRam
  deriving DecidableEq

/-- `MemoryType::from_u32`. -/
def MemoryType.from_u32 : Nat → Option MemoryType
  | 1 => some .Available
  | 2 => some .Reserved
  | 3 => some .AcpiReclaimable
  | 4 => some .Nvs
  | 5 => some .BadRam
  | _ => none

/-- `MemoryMapEntry` (multiboot2.rs): `u64 base_addr; u64 length;
u32 mem_type; u32 reserved`. -/
structure MemoryMapEntry where
  base_addr : Nat
  length : Nat
  mem_type : Nat
  reserved : Nat
  deriving DecidableEq

/-- `BitmapAllocator` (physical.rs).  The `&'static mut [u8]` bitmap is a
list of bytes; `free_frames` is the `AtomicUsize` counter (the single
kernel thread only uses relaxed loads/stores, so it is plain data here);
`start_frame` is the rotating allocation hint. -/
structure BitmapAllocator where
  bitmap : List Nat
  total_frames : Nat
  free_frames : Nat
  start_frame : Nat
  deriving DecidableEq

namespace BitmapAllocator

/-- `BitmapAllocator::new`: empty bitmap, everything zero. -/
def new : BitmapAllocator := ⟨[], 0, 0, 0⟩

/-- `BitmapAllocator::mark_frame_free`: clears bit `frame` (byte `frame/8`,
bit `frame%8`) and reports whether it was previously set.  `!mask` on `u8`
is `0xFF ^ mask`. -/
def mark_frame_free (a : BitmapAllocator) (frame : Nat) : BitmapAllocator × Bool :=
  if frame ≥ a.total_frames then (a, false)
  else
    let byte_index := frame / 8
    let mask := 1 <<< (frame % 8)
    let byte := a.bitmap.getD byte_index 0
    ({ a with bitmap := a.bitmap.set byte_index (byte &&& (0xFF ^^^ mask)) },
     (byte &&& mask) != 0)

/-- `BitmapAllocator::mark_frame_allocated`: sets bit `frame`. -/
def mark_frame_allocated (a : BitmapAllocator) (frame : Nat) : BitmapAllocator :=
  if frame ≥ a.total_frames then a
  else
    let byte_index := frame / 8
    let mask := 1 <<< (frame % 8)
    { a with bitmap := a.bitmap.set byte_index ((a.bitmap.getD byte_index 0) ||| mask) }

/-- `BitmapAllocator::is_frame_free`: bit `frame` is clear (frames at or
beyond `total_frames` are never free). -/
def is_frame_free (a : BitmapAllocator) (frame : Nat) : Bool :=
  if frame ≥ a.total_frames then false
  else (a.bitmap.getD (frame / 8) 0 &&& (1 <<< (frame % 8))) == 0

/-- `BitmapAllocator::count_free_frames`: scan of `[0, total_frames)`. -/
def count_free_frames (a : BitmapAllocator) : Nat :=
  (List.range a.total_frames).countP (fun f => a.is_frame_free f)

end BitmapAllocator

/-- The `for frame in start..stop` loop of `mark_region_free`, accumulating
the count of frames that `mark_frame_free` reports as previously allocated. -/
def markFreeLoop (a : BitmapAllocator) (frame stop count : Nat) : BitmapAllocator × Nat :=
  if h : frame < stop then
    let r := a.mark_frame_free frame
    markFreeLoop r.1 (frame + 1) stop (if r.2 then count + 1 else count)
  else (a, count)
termination_by stop - frame

/-- `BitmapAllocator::mark_region_free`: frames
`[start/4096, min(⌈end/4096⌉, total_frames))`. -/
def BitmapAllocator.mark_region_free (a : BitmapAllocator) (start stop : Nat) :
    BitmapAllocator × Nat :=
  markFreeLoop a (start / PAGE_SIZE)
    (min ((stop + PAGE_SIZE - 1) / PAGE_SIZE) a.total_frames) 0

/-- The `for` loop of `mark_region_reserved`. -/
def markReservedLoop (a : BitmapAllocator) (frame stop : Nat) : BitmapAllocator :=
  if h : frame < stop then markReservedLoop (a.mark_frame_allocated frame) (frame + 1) stop
  else a
termination_by stop - frame

/-- `BitmapAllocator::mark_region_reserved`. -/
def BitmapAllocator.mark_region_reserved (a : BitmapAllocator) (start stop : Nat) :
    BitmapAllocator :=
  markReservedLoop a (start / PAGE_SIZE)
    (min ((stop + PAGE_SIZE - 1) / PAGE_SIZE) a.total_frames)

/-- Free function `align_up` (physical.rs): `(addr + align - 1) & !(align - 1)`
on `usize`; the mask `!(align - 1)` is `2^64 - align`. -/
def physAlignUp (addr align : Nat) : Nat :=
  ((addr + align - 1) % USIZE) &&& (USIZE - align)

/-- `BitmapAllocator::init`.  The source walks the Multiboot2 memory-map
iterator twice; here the decoded entries are passed as a list.  The raw
bitmap storage carved out behind the kernel is embedded as a fresh list of
`bitmap_bytes` bytes, initially all `0xFF`.  The local `free_count`
accumulated from `mark_region_free` is dead in the source (line 113
overwrites the counter with `count_free_frames()`), so the counts are
discarded here as well. -/
def BitmapAllocator.init (self : BitmapAllocator) (entries : List MemoryMapEntry)
    (kernel_start kernel_end : Nat) : BitmapAllocator :=
  let highest := entries.foldl (fun h e =>
    let end_addr := (e.base_addr + e.length) % USIZE
    if end_addr > h then end_addr else h) 0
  let highest := if highest > MAX_PHYSICAL_MEMORY then MAX_PHYSICAL_MEMORY else highest
  let total_frames := highest / PAGE_SIZE
  let bitmap_bytes := (total_frames + 7) / 8
  let bitmap_start := physAlignUp kernel_end PAGE_SIZE
  let bitmap_end := (bitmap_start + bitmap_bytes) % USIZE
  let a : BitmapAllocator :=
    { self with total_frames := total_frames, bitmap := List.replicate bitmap_bytes 0xFF }
  let a := entries.foldl (fun acc e =>
    if MemoryType.from_u32 e.mem_type = some MemoryType.Available then
      (acc.mark_region_free e.base_addr ((e.base_addr + e.length) % USIZE)).1
    else acc) a
  let a := a.mark_region_reserved kernel_start kernel_end
  let a := a.mark_region_reserved bitmap_start bitmap_end
  { a with free_frames := a.count_free_frames }

/-- One `for frame in lo..hi { if free { return } }` scan of
`allocate_frame`, returning the first free frame found. -/
def scanFree (a : BitmapAllocator) (frame stop : Nat) : Option Nat :=
  if h : frame < stop then
    if a.is_frame_free frame then some frame else scanFree a (frame + 1) stop
  else none
termination_by stop - frame

/-- `BitmapAllocator::allocate_frame`: first-fit scan from `start_frame`,
then one wrap-around pass from 0 up to `start_frame`. -/
def BitmapAllocator.allocate_frame (a : BitmapAllocator) :
    Option Nat × BitmapAllocator :=
  match scanFree a a.start_frame a.total_frames with
  | some frame =>
    (some (frame * PAGE_SIZE),
     { a.mark_frame_allocated frame with
        free_frames := usizeSub a.free_frames 1, start_frame := frame + 1 })
  | none =>
    match scanFree a 0 a.start_frame with
    | some frame =>
      (some (frame * PAGE_SIZE),
       { a.mark_frame_allocated frame with
          free_frames := usizeSub a.free_frames 1, start_frame := frame + 1 })
    | none => (none, a)

/-- The scanning loop of `allocate_frames`, with its `consecutive` and
`start_frame` locals; returns the start of the first run of `count`
consecutive free frames. -/
def findRunAux (a : BitmapAllocator) (count frame consecutive start : Nat) : Option Nat :=
  if h : frame < a.total_frames then
    if a.is_frame_free frame then
      let start' := if consecutive = 0 then frame else start
      if consecutive + 1 = count then some start'
      else findRunAux a count (frame + 1) (consecutive + 1) start'
    else findRunAux a count (frame + 1) 0 start
  else none
termination_by a.total_frames - frame

/-- The `for f in start..(start + count)` marking loop of `allocate_frames`
(recursion on the number of frames left to mark). -/
def markAllocRange (a : BitmapAllocator) (frame n : Nat) : BitmapAllocator :=
  match n with
  | 0 => a
  | m + 1 => markAllocRange (a.mark_frame_allocated frame) (frame + 1) m

/-- `BitmapAllocator::allocate_frames`. -/
def BitmapAllocator.allocate_frames (a : BitmapAllocator) (count : Nat) :
    Option Nat × BitmapAllocator :=
  if count = 0 then (none, a)
  else if count = 1 then a.allocate_frame
  else
    match findRunAux a count 0 0 0 with
    | some start =>
      (some (start * PAGE_SIZE),
       { markAllocRange a start count with
          free_frames := usizeSub a.free_frames count, start_frame := start + count })
    | none => (none, a)

/-- `BitmapAllocator::free_frame`. -/
def BitmapAllocator.free_frame (a : BitmapAllocator) (phys_addr : Nat) : BitmapAllocator :=
  let frame := phys_addr / PAGE_SIZE
  if frame < a.total_frames ∧ a.is_frame_free frame = false then
    let a1 := { (a.mark_frame_free frame).1 with free_frames := usizeAdd a.free_frames 1 }
    if frame < a.start_frame then { a1 with start_frame := frame } else a1
  else a

/-- The `for i in 0..count` loop of `free_frames` (recursion on the number
of frames left). -/
def freeFramesLoop (a : BitmapAllocator) (frame n : Nat) : BitmapAllocator :=
  match n with
  | 0 => a
  | m + 1 =>
    let a1 :=
      if frame < a.total_frames ∧ a.is_frame_free frame = false then
        { (a.mark_frame_free frame).1 with free_frames := usizeAdd a.free_frames 1 }
      else a
    freeFramesLoop a1 (frame + 1) m

/-- `BitmapAllocator::free_frames` (named `freeFrames` here because the
struct field of the same name takes the `free_frames` slot). -/
def BitmapAllocator.freeFrames (a : BitmapAllocator) (phys_addr count : Nat) :
    BitmapAllocator :=
  let start_frame := phys_addr / PAGE_SIZE
  let a1 := freeFramesLoop a start_frame count
  if start_frame < a1.start_frame then { a1 with start_frame := start_frame } else a1

/-- `BitmapAllocator::get_free_frames`. -/
def BitmapAllocator.get_free_frames (a : BitmapAllocator) : Nat := a.free_frames

/-- `BitmapAllocator::allocated_frames`: `total - free`, saturating. -/
def BitmapAllocator.allocated_frames (a : BitmapAllocator) : Nat :=
  a.total_frames - a.get_free_frames

/-- Well-formedness of an allocator state: the bitmap covers all tracked
frames (guaranteed by `init`, which sizes it as `⌈total_frames/8⌉` bytes)
and the frame count fits in a `usize`. -/
def Wf (a : BitmapAllocator) : Prop :=
  a.total_frames ≤ 8 * a.bitmap.length ∧ a.total_frames < USIZE

/-- A run of `n` consecutive free frames starting at `s`. -/
def runFree (a : BitmapAllocator) (s n : Nat) : Prop :=
  ∀ i, i < n → a.is_frame_free (s + i) = true

instance (a : BitmapAllocator) (s n : Nat) : Decidable (runFree a s n) := by
  unfold runFree
  infer_instance

/- Helper lemmas about bytes and bits. -/

theorem land_shiftLeft_one_beq (b i : Nat) : ((b &&& (1 <<< i)) == 0) = !b.testBit i := by
  rw [Nat.shiftLeft_eq, one_mul]
  cases h : b.testBit i
  · simp [Nat.and_two_pow, h]
  · have h2 : (2 : Nat) ^ i ≠ 0 := (Nat.two_pow_pos i).ne'
    simp [Nat.and_two_pow, h, h2]

theorem testBit_mask_set (j i : Nat) : (1 <<< j).testBit i = decide (i = j) := by
  rw [show (1 : Nat) <<< j = 2 ^ j by rw [Nat.shiftLeft_eq, one_mul], Nat.testBit_two_pow]
  simp [eq_comm]

theorem testBit_mask_clear (j i : Nat) (hi : i < 8) :
    (0xFF ^^^ (1 <<< j)).testBit i = decide (i ≠ j) := by
  rw [show (0xFF : Nat) = 2 ^ 8 - 1 by norm_num, Nat.testBit_xor,
    Nat.testBit_two_pow_sub_one, testBit_mask_set]
  by_cases h : i = j
  · subst h
    simp [hi]
  · simp [h, hi]

theorem getD_set_self (l : List Nat) (i x : Nat) (h : i < l.length) :
    (l.set i x).getD i 0 = x := by
  rw [List.getD_eq_getElem?_getD, List.getElem?_set_self h]
  rfl

theorem getD_set_ne (l : List Nat) (i j x : Nat) (h : i ≠ j) :
    (l.set i x).getD j 0 = l.getD j 0 := by
  rw [List.getD_eq_getElem?_getD, List.getElem?_set_ne h, ← List.getD_eq_getElem?_getD]

namespace BitmapAllocator

/- Field-preservation facts for the marking primitives. -/

theorem mark_frame_allocated_total (a : BitmapAllocator) (f : Nat) :
    (a.mark_frame_allocated f).total_frames = a.total_frames := by
  unfold mark_frame_allocated
  split <;> rfl

theorem mark_frame_allocated_len (a : BitmapAllocator) (f : Nat) :
    (a.mark_frame_allocated f).bitmap.length = a.bitmap.length := by
  unfold mark_frame_allocated
  split
  · rfl
  · simp

theorem mark_frame_allocated_free (a : BitmapAllocator) (f : Nat) :
    (a.mark_frame_allocated f).free_frames = a.free_frames := by
  unfold mark_frame_allocated
  split <;> rfl

theorem mark_frame_allocated_start (a : BitmapAllocator) (f : Nat) :
    (a.mark_frame_allocated f).start_frame = a.start_frame := by
  unfold mark_frame_allocated
  split <;> rfl

theorem mark_frame_free_total (a : BitmapAllocator) (f : Nat) :
    (a.mark_frame_free f).1.total_frames = a.total_frames := by
  unfold mark_frame_free
  split <;> rfl

theorem mark_frame_free_len (a : BitmapAllocator) (f : Nat) :
    (a.mark_frame_free f).1.bitmap.length = a.bitmap.length := by
  unfold mark_frame_free
  split
  · rfl
  · simp

theorem mark_frame_free_free (a : BitmapAllocator) (f : Nat) :
    (a.mark_frame_free f).1.free_frames = a.free_frames := by
  unfold mark_frame_free
  split <;> rfl

theorem mark_frame_free_start (a : BitmapAllocator) (f : Nat) :
    (a.mark_frame_free f).1.start_frame = a.start_frame := by
  unfold mark_frame_free
  split <;> rfl

/-- `is_frame_free` in terms of `Nat.testBit`. -/
theorem isFree_iff_testBit (a : BitmapAllocator) (g : Nat) :
    a.is_frame_free g =
      (decide (g < a.total_frames) && !(a.bitmap.getD (g / 8) 0).testBit (g % 8)) := by
  unfold is_frame_free
  by_cases h : g ≥ a.total_frames
  · rw [if_pos h, decide_eq_false (by omega : ¬ g < a.total_frames)]
    rfl
  · rw [if_neg h, land_shiftLeft_one_beq, decide_eq_true (by omega : g < a.total_frames)]
    rfl

/-- `is_frame_free` of frames at or beyond `total_frames`. -/
theorem isFree_of_ge_total (a : BitmapAllocator) (g : Nat) (h : a.total_frames ≤ g) :
    a.is_frame_free g = false := by
  unfold is_frame_free
  rw [if_pos (by omega : g ≥ a.total_frames)]

/-- A free frame is below `total_frames`. -/
theorem lt_total_of_isFree (a : BitmapAllocator) (g : Nat) (h : a.is_frame_free g = true) :
    g < a.total_frames := by
  by_contra hc
  rw [isFree_of_ge_total a g (by omega)] at h
  exact Bool.false_ne_true h

/-- Setting bit `f` makes frame `f` allocated and leaves every other
frame's status unchanged. -/
theorem isFree_markAllocated (a : BitmapAllocator) (f : Nat)
    (hW : a.total_frames ≤ 8 * a.bitmap.length) (hf : f < a.total_frames) (g : Nat) :
    (a.mark_frame_allocated f).is_frame_free g =
      if g = f then false else a.is_frame_free g := by
  have hfb : f / 8 < a.bitmap.length := by omega
  have hm : a.mark_frame_allocated f =
      { a with bitmap := a.bitmap.set (f / 8) ((a.bitmap.getD (f / 8) 0) ||| (1 <<< (f % 8))) } := by
    unfold mark_frame_allocated
    rw [if_neg (by omega : ¬ f ≥ a.total_frames)]
  rw [hm, isFree_iff_testBit, isFree_iff_testBit]
  dsimp only
  by_cases hg : g < a.total_frames
  · by_cases hb : g / 8 = f / 8
    · rw [hb, getD_set_self _ _ _ hfb]
      by_cases hgf : g = f
      · rw [if_pos hgf]
        have hbit : ((a.bitmap.getD (f / 8) 0 ||| 1 <<< (f % 8)).testBit (g % 8)) = true := by
          rw [Nat.testBit_lor, testBit_mask_set,
            decide_eq_true (show g % 8 = f % 8 by rw [hgf]), Bool.or_true]
        rw [hbit]
        simp
      · have hne : g % 8 ≠ f % 8 := by omega
        have hbit : ((a.bitmap.getD (f / 8) 0 ||| 1 <<< (f % 8)).testBit (g % 8)) =
            (a.bitmap.getD (f / 8) 0).testBit (g % 8) := by
          rw [Nat.testBit_lor, testBit_mask_set, decide_eq_false hne, Bool.or_false]
        rw [hbit, if_neg hgf]
    · rw [getD_set_ne _ _ _ _ (by omega : f / 8 ≠ g / 8)]
      have hgf : g ≠ f := by omega
      rw [if_neg hgf]
  · have hgf : g ≠ f := by omega
    rw [if_neg hgf, decide_eq_false hg, Bool.false_and, Bool.false_and]

/-- Clearing bit `f` makes frame `f` free and leaves every other frame's
status unchanged. -/
theorem isFree_markFree (a : BitmapAllocator) (f : Nat)
    (hW : a.total_frames ≤ 8 * a.bitmap.length) (hf : f < a.total_frames) (g : Nat) :
    (a.mark_frame_free f).1.is_frame_free g =
      if g = f then true else a.is_frame_free g := by
  have hfb : f / 8 < a.bitmap.length := by omega
  have hm : (a.mark_frame_free f).1 = { a with bitmap := a.bitmap.set (f / 8) ((a.bitmap.getD (f / 8) 0) &&& (0xFF ^^^ (1 <<< (f % 8)))) } := by
    unfold mark_frame_free
    rw [if_neg (by omega : ¬ f ≥ a.total_frames)]
  rw [hm, isFree_iff_testBit, isFree_iff_testBit]
  dsimp only
  by_cases hg : g < a.total_frames
  · by_cases hb : g / 8 = f / 8
    · rw [hb, getD_set_self _ _ _ hfb]
      by_cases hgf : g = f
      · rw [if_pos hgf]
        have hbit : ((a.bitmap.getD (f / 8) 0 &&& (0xFF ^^^ 1 <<< (f % 8))).testBit (g % 8)) = false := by
          rw [Nat.testBit_land, testBit_mask_clear _ _ (by omega : g % 8 < 8),
            decide_eq_false (show ¬ g % 8 ≠ f % 8 by omega), Bool.and_false]
        rw [hbit, decide_eq_true hg]
        simp
      · have hne : g % 8 ≠ f % 8 := by omega
        have hbit : ((a.bitmap.getD (f / 8) 0 &&& (0xFF ^^^ 1 <<< (f % 8))).testBit (g % 8)) =
            (a.bitmap.getD (f / 8) 0).testBit (g % 8) := by
          rw [Nat.testBit_land, testBit_mask_clear _ _ (by omega : g % 8 < 8),
            decide_eq_true hne, Bool.and_true]
        rw [hbit, if_neg hgf]
    · rw [getD_set_ne _ _ _ _ (by omega : f / 8 ≠ g / 8)]
      have hgf : g ≠ f := by omega
      rw [if_neg hgf]
  · have hgf : g ≠ f := by omega
    rw [if_neg hgf, decide_eq_false hg, Bool.false_and, Bool.false_and]

end BitmapAllocator

/-- Counting over `range n` after flipping the predicate from `true` to
`false` at a single point `f < n`. -/
theorem countP_range_flip {p q : Nat → Bool} {n f : Nat} (hfn : f < n)
    (hp : p f = true) (hq : q f = false) (hagree : ∀ g, g ≠ f → q g = p g) :
    (List.range n).countP q + 1 = (List.range n).countP p := by
  induction n with
  | zero => omega
  | succ n ih =>
    rw [List.range_succ, List.countP_append, List.countP_append]
    have hc : ∀ r : Nat → Bool, List.countP r [n] = if r n then 1 else 0 := by
      intro r
      simp [List.countP_cons]
    rw [hc, hc]
    by_cases hf : f = n
    · subst hf
      have he : (List.range f).countP q = (List.range f).countP p := by
        apply List.countP_congr
        intro g hg
        rw [hagree g (by simp [List.mem_range] at hg; omega)]
      rw [he, hp, hq]
      simp
    · have h1 := ih (by omega)
      have hqp : q n = p n := hagree n (by omega)
      rw [hqp]
      by_cases hpn : p n = true <;> simp [hpn] <;> omega

namespace BitmapAllocator

/-- Allocating a free frame `f` drops the free count by exactly one. -/
theorem count_markAllocated (a : BitmapAllocator) (f : Nat)
    (hW : a.total_frames ≤ 8 * a.bitmap.length) (hf : a.is_frame_free f = true) :
    (a.mark_frame_allocated f).count_free_frames + 1 = a.count_free_frames := by
  have hft : f < a.total_frames := lt_total_of_isFree a f hf
  unfold count_free_frames
  rw [mark_frame_allocated_total]
  exact countP_range_flip hft hf
    (by rw [isFree_markAllocated a f hW hft f, if_pos rfl])
    (fun g hg => by rw [isFree_markAllocated a f hW hft g, if_neg hg])

/-- Freeing an allocated frame `f < total_frames` raises the free count by
exactly one. -/
theorem count_markFree (a : BitmapAllocator) (f : Nat)
    (hW : a.total_frames ≤ 8 * a.bitmap.length) (hft : f < a.total_frames)
    (hf : a.is_frame_free f = false) :
    (a.mark_frame_free f).1.count_free_frames = a.count_free_frames + 1 := by
  unfold count_free_frames
  rw [mark_frame_free_total]
  exact (countP_range_flip hft
    (by rw [isFree_markFree a f hW hft f, if_pos rfl]) hf
    (fun g hg => by rw [isFree_markFree a f hW hft g, if_neg hg])).symm

theorem count_le_total (a : BitmapAllocator) : a.count_free_frames ≤ a.total_frames := by
  unfold count_free_frames
  calc (List.range a.total_frames).countP (fun f => a.is_frame_free f)
      ≤ (List.range a.total_frames).length := List.countP_le_length _
    _ = a.total_frames := List.length_range _

theorem one_le_count (a : BitmapAllocator) (f : Nat) (hf : a.is_frame_free f = true) :
    1 ≤ a.count_free_frames := by
  unfold count_free_frames
  have h : 0 < (List.range a.total_frames).countP (fun f => a.is_frame_free f) := by
    rw [List.countP_pos_iff]
    exact ⟨f, List.mem_range.mpr (lt_total_of_isFree a f hf), hf⟩
  omega

end BitmapAllocator

/- Facts about the marking loop of allocate_frames. -/

theorem markAllocRange_total (a : BitmapAllocator) (s n : Nat) :
    (markAllocRange a s n).total_frames = a.total_frames := by
  induction n generalizing a s with
  | zero => rfl
  | succ m ih => rw [markAllocRange, ih, BitmapAllocator.mark_frame_allocated_total]

theorem markAllocRange_len (a : BitmapAllocator) (s n : Nat) :
    (markAllocRange a s n).bitmap.length = a.bitmap.length := by
  induction n generalizing a s with
  | zero => rfl
  | succ m ih => rw [markAllocRange, ih, BitmapAllocator.mark_frame_allocated_len]

theorem markAllocRange_free (a : BitmapAllocator) (s n : Nat) :
    (markAllocRange a s n).free_frames = a.free_frames := by
  induction n generalizing a s with
  | zero => rfl
  | succ m ih => rw [markAllocRange, ih, BitmapAllocator.mark_frame_allocated_free]

theorem markAllocRange_start (a : BitmapAllocator) (s n : Nat) :
    (markAllocRange a s n).start_frame = a.start_frame := by
  induction n generalizing a s with
  | zero => rfl
  | succ m ih => rw [markAllocRange, ih, BitmapAllocator.mark_frame_allocated_start]

/-- Marking a run of `n` free frames drops the free count by exactly `n`. -/
theorem count_markAllocRange (a : BitmapAllocator) (s n : Nat)
    (hW : a.total_frames ≤ 8 * a.bitmap.length) (hrun : runFree a s n) :
    (markAllocRange a s n).count_free_frames + n = a.count_free_frames := by
  induction n generalizing a s with
  | zero => rfl
  | succ m ih =>
    have hsfree : a.is_frame_free s = true := by
      have := hrun 0 (by omega)
      rwa [Nat.add_zero] at this
    have hst : s < a.total_frames := BitmapAllocator.lt_total_of_isFree a s hsfree
    have hrun2 : runFree (a.mark_frame_allocated s) (s + 1) m := by
      intro i hi
      rw [BitmapAllocator.isFree_markAllocated a s hW hst (s + 1 + i), if_neg (by omega)]
      have := hrun (i + 1) (by omega)
      rwa [show s + (i + 1) = s + 1 + i by omega] at this
    have hW2 : (a.mark_frame_allocated s).total_frames ≤
        8 * (a.mark_frame_allocated s).bitmap.length := by
      rw [BitmapAllocator.mark_frame_allocated_total, BitmapAllocator.mark_frame_allocated_len]
      exact hW
    have h1 := ih (a.mark_frame_allocated s) (s + 1) hW2 hrun2
    have h2 := BitmapAllocator.count_markAllocated a s hW hsfree
    rw [markAllocRange]
    omega

/- Specification of the first-fit scan loops of allocate_frame. -/

theorem scanFree_none (a : BitmapAllocator) :
    ∀ fuel lo hi, hi - lo ≤ fuel →
      (∀ g, lo ≤ g → g < hi → a.is_frame_free g = false) →
      scanFree a lo hi = none := by
  intro fuel
  induction fuel with
  | zero =>
    intro lo hi hle h
    rw [scanFree, dif_neg (by omega : ¬ lo < hi)]
  | succ n ih =>
    intro lo hi hle h
    rw [scanFree]
    by_cases hlt : lo < hi
    · rw [dif_pos hlt, h lo le_rfl hlt]
      simp only [Bool.false_eq_true, if_false]
      exact ih (lo + 1) hi (by omega) (fun g hg1 hg2 => h g (by omega) hg2)
    · rw [dif_neg hlt]

theorem scanFree_some (a : BitmapAllocator) :
    ∀ fuel lo hi f, hi - lo ≤ fuel → scanFree a lo hi = some f →
      lo ≤ f ∧ f < hi ∧ a.is_frame_free f = true ∧
        (∀ g, lo ≤ g → g < f → a.is_frame_free g = false) := by
  intro fuel
  induction fuel with
  | zero =>
    intro lo hi f hle hs
    rw [scanFree, dif_neg (by omega : ¬ lo < hi)] at hs
    exact absurd hs (by simp)
  | succ n ih =>
    intro lo hi f hle hs
    rw [scanFree] at hs
    by_cases hlt : lo < hi
    · rw [dif_pos hlt] at hs
      by_cases hfree : a.is_frame_free lo = true
      · rw [hfree] at hs
        simp only [if_true] at hs
        obtain rfl : lo = f := by simpa using hs
        exact ⟨le_rfl, hlt, hfree, fun g hg1 hg2 => by omega⟩
      · rw [Bool.not_eq_true] at hfree
        rw [hfree] at hs
        simp only [Bool.false_eq_true, if_false] at hs
        obtain ⟨h1, h2, h3, h4⟩ := ih (lo + 1) hi f (by omega) hs
        refine ⟨by omega, h2, h3, fun g hg1 hg2 => ?_⟩
        rcases Nat.eq_or_lt_of_le hg1 with heq | hlt2
        · rw [← heq]
          exact hfree
        · exact h4 g (by omega) hg2
    · rw [dif_neg hlt] at hs
      exact absurd hs (by simp)

theorem scanFree_eq_some (a : BitmapAllocator) :
    ∀ fuel lo hi f, hi - lo ≤ fuel → lo ≤ f → f < hi → a.is_frame_free f = true →
      (∀ g, lo ≤ g → g < f → a.is_frame_free g = false) →
      scanFree a lo hi = some f := by
  intro fuel
  induction fuel with
  | zero =>
    intro lo hi f hle h1 h2 h3 h4
    omega
  | succ n ih =>
    intro lo hi f hle h1 h2 h3 h4
    rw [scanFree, dif_pos (by omega : lo < hi)]
    rcases Nat.eq_or_lt_of_le h1 with heq | hlt
    · subst heq
      rw [h3]
      simp only [if_true]
    · rw [h4 lo le_rfl hlt]
      simp only [Bool.false_eq_true, if_false]
      exact ih (lo + 1) hi f (by omega) (by omega) h2 h3
        (fun g hg1 hg2 => h4 g (by omega) hg2)

/- Specification of the contiguous-run scan of allocate_frames. -/

/-- When the scan cursor has passed the end of the bitmap, no run of
`count` free frames exists anywhere (frames at or beyond `total_frames`
are never free). -/
theorem findRunAux_exhausted (a : BitmapAllocator) (count : Nat) (hc0 : 0 < count)
    (frame : Nat) (hframe : a.total_frames ≤ frame)
    (hE : ∀ t, t + count ≤ frame → ¬ runFree a t count) :
    ∀ t, ¬ runFree a t count := by
  intro t hrt
  by_cases htc : t + count ≤ frame
  · exact hE t htc hrt
  · have h1 : a.total_frames ≤ t + (count - 1) := by omega
    have h2 := hrt (count - 1) (by omega)
    rw [BitmapAllocator.isFree_of_ge_total a _ h1] at h2
    exact Bool.false_ne_true h2

/-- Invariant-carrying specification of `findRunAux`: on `some s` the scan
found a run of `count` free frames at `s` and no earlier run exists; on
`none` no run exists at all.  The invariants say: `consecutive` counts the
free frames immediately below `frame`, the frame just below that block (if
any) is allocated, no run finishing at or before `frame` exists, and
`start` records the block start whenever `consecutive > 0`. -/
theorem findRunAux_spec (a : BitmapAllocator) (count : Nat) (hc0 : 0 < count) :
    ∀ fuel frame consecutive start,
      a.total_frames - frame ≤ fuel →
      consecutive < count →
      consecutive ≤ frame →
      (∀ i, i < consecutive → a.is_frame_free (frame - consecutive + i) = true) →
      (frame = consecutive ∨ a.is_frame_free (frame - consecutive - 1) = false) →
      (∀ t, t + count ≤ frame → ¬ runFree a t count) →
      (consecutive = 0 ∨ start = frame - consecutive) →
      (∀ s, findRunAux a count frame consecutive start = some s →
        runFree a s count ∧ ∀ t, t < s → ¬ runFree a t count) ∧
      (findRunAux a count frame consecutive start = none → ∀ t, ¬ runFree a t count) := by
  intro fuel
  induction fuel with
  | zero =>
    intro frame consecutive start hfuel hC hA hB hD hE hS
    have hframe : ¬ frame < a.total_frames := by omega
    rw [findRunAux, dif_neg hframe]
    constructor
    · intro s hs
      exact absurd hs (by simp)
    · intro _
      exact findRunAux_exhausted a count hc0 frame (by omega) hE
  | succ n ih =>
    intro frame consecutive start hfuel hC hA hB hD hE hS
    rw [findRunAux]
    by_cases hframe : frame < a.total_frames
    case neg =>
      rw [dif_neg hframe]
      constructor
      · intro s hs
        exact absurd hs (by simp)
      · intro _
        exact findRunAux_exhausted a count hc0 frame (by omega) hE
    case pos =>
      rw [dif_pos hframe]
      have hstart : (if consecutive = 0 then frame else start) = frame - consecutive := by
        rcases hS with h0 | hs2
        · rw [if_pos h0, h0]
          omega
        · by_cases h0 : consecutive = 0
          · rw [if_pos h0, h0]
            omega
          · rw [if_neg h0, hs2]
      by_cases hfree : a.is_frame_free frame = true
      · rw [hfree]
        simp only [if_true, hstart]
        by_cases hcc : consecutive + 1 = count
        · rw [if_pos hcc]
          constructor
          · intro s hs
            have hse : frame - consecutive = s := by simpa using hs
            subst hse
            refine ⟨?_, ?_⟩
            · intro i hi
              rcases Nat.lt_or_ge i consecutive with hic | hic
              · exact hB i hic
              · have hie : frame - consecutive + i = frame := by omega
                rw [hie]
                exact hfree
            · intro t ht hrt
              exact hE t (by omega) hrt
          · intro hcontra
            exact absurd hcontra (by simp)
        · rw [if_neg hcc]
          refine ih (frame + 1) (consecutive + 1) (frame - consecutive) (by omega)
            (by omega) (by omega) ?_ ?_ ?_ ?_
          · intro i hi
            rw [show frame + 1 - (consecutive + 1) + i = frame - consecutive + i by omega]
            rcases Nat.lt_or_ge i consecutive with h | h
            · exact hB i h
            · have hie : frame - consecutive + i = frame := by omega
              rw [hie]
              exact hfree
          · rcases hD with h | h
            · exact Or.inl (by omega)
            · refine Or.inr ?_
              rw [show frame + 1 - (consecutive + 1) - 1 = frame - consecutive - 1 by omega]
              exact h
          · intro t ht hrt
            by_cases h2 : t + count ≤ frame
            · exact hE t h2 hrt
            · have hcnt : consecutive + 1 < count := by omega
              rcases hD with h3 | h3
              · omega
              · have ht2 : t < frame - consecutive := by omega
                have hidx : frame - consecutive - 1 - t < count := by omega
                have h4 := hrt (frame - consecutive - 1 - t) hidx
                rw [show t + (frame - consecutive - 1 - t) = frame - consecutive - 1 by omega,
                  h3] at h4
                exact Bool.false_ne_true h4
          · exact Or.inr (by omega)
      · rw [Bool.not_eq_true] at hfree
        rw [hfree]
        simp only [Bool.false_eq_true, if_false]
        refine ih (frame + 1) 0 start (by omega) (by omega) (by omega)
          (fun i hi => absurd hi (by omega)) ?_ ?_ (Or.inl rfl)
        · refine Or.inr ?_
          rw [show frame + 1 - 0 - 1 = frame by omega]
          exact hfree
        · intro t ht hrt
          by_cases h2 : t + count ≤ frame
          · exact hE t h2 hrt
          · have h4 := hrt (count - 1) (by omega)
            rw [show t + (count - 1) = frame by omega, hfree] at h4
            exact Bool.false_ne_true h4

/-- Soundness of the full scan: a successful `findRunAux` from the origin
returns the lowest-starting run. -/
theorem findRun_some_spec (a : BitmapAllocator) (count s : Nat) (hc2 : 2 ≤ count)
    (hs : findRunAux a count 0 0 0 = some s) :
    runFree a s count ∧ ∀ t, t < s → ¬ runFree a t count :=
  ((findRunAux_spec a count (by omega) a.total_frames 0 0 0 (by omega) (by omega)
    (by omega) (fun i hi => absurd hi (by omega)) (Or.inl rfl)
    (fun t ht => absurd ht (by omega)) (Or.inl rfl)).1 s hs)

/-- Completeness of the full scan: if it returns `none`, no run exists. -/
theorem findRun_none_spec (a : BitmapAllocator) (count : Nat) (hc2 : 2 ≤ count)
    (hn : findRunAux a count 0 0 0 = none) :
    ∀ t, ¬ runFree a t count :=
  ((findRunAux_spec a count (by omega) a.total_frames 0 0 0 (by omega) (by omega)
    (by omega) (fun i hi => absurd hi (by omega)) (Or.inl rfl)
    (fun t ht => absurd ht (by omega)) (Or.inl rfl)).2 hn)

/-- The scan returns exactly the lowest-starting run when one exists. -/
theorem findRun_eq_some (a : BitmapAllocator) (count s : Nat) (hc2 : 2 ≤ count)
    (hrun : runFree a s count) (hmin : ∀ t, t < s → ¬ runFree a t count) :
    findRunAux a count 0 0 0 = some s := by
  cases h : findRunAux a count 0 0 0 with
  | none => exact absurd hrun (findRun_none_spec a count hc2 h s)
  | some s2 =>
    obtain ⟨hr2, hm2⟩ := findRun_some_spec a count s2 hc2 h
    have h1 : ¬ s2 < s := fun hl => hmin s2 hl hr2
    have h2 : ¬ s < s2 := fun hl => hm2 s hl hrun
    have hse : s2 = s := by omega
    rw [hse]

/- Shape preservation through the init marking loops. -/

theorem markFreeLoop_shape : ∀ fuel (a : BitmapAllocator) (frame stop cnt : Nat),
    stop - frame ≤ fuel →
    (markFreeLoop a frame stop cnt).1.total_frames = a.total_frames ∧
    (markFreeLoop a frame stop cnt).1.bitmap.length = a.bitmap.length := by
  intro fuel
  induction fuel with
  | zero =>
    intro a frame stop cnt h
    rw [markFreeLoop, dif_neg (by omega : ¬ frame < stop)]
    exact ⟨rfl, rfl⟩
  | succ n ih =>
    intro a frame stop cnt h
    rw [markFreeLoop]
    by_cases hlt : frame < stop
    · rw [dif_pos hlt]
      obtain ⟨h1, h2⟩ := ih (a.mark_frame_free frame).1 (frame + 1) stop
        (if (a.mark_frame_free frame).2 then cnt + 1 else cnt) (by omega)
      exact ⟨h1.trans (BitmapAllocator.mark_frame_free_total a frame),
        h2.trans (BitmapAllocator.mark_frame_free_len a frame)⟩
    · rw [dif_neg hlt]
      exact ⟨rfl, rfl⟩

theorem markReservedLoop_shape : ∀ fuel (a : BitmapAllocator) (frame stop : Nat),
    stop - frame ≤ fuel →
    (markReservedLoop a frame stop).total_frames = a.total_frames ∧
    (markReservedLoop a frame stop).bitmap.length = a.bitmap.length := by
  intro fuel
  induction fuel with
  | zero =>
    intro a frame stop h
    rw [markReservedLoop, dif_neg (by omega : ¬ frame < stop)]
    exact ⟨rfl, rfl⟩
  | succ n ih =>
    intro a frame stop h
    rw [markReservedLoop]
    by_cases hlt : frame < stop
    · rw [dif_pos hlt]
      obtain ⟨h1, h2⟩ := ih (a.mark_frame_allocated frame) (frame + 1) stop (by omega)
      exact ⟨h1.trans (BitmapAllocator.mark_frame_allocated_total a frame),
        h2.trans (BitmapAllocator.mark_frame_allocated_len a frame)⟩
    · rw [dif_neg hlt]
      exact ⟨rfl, rfl⟩

theorem mark_region_free_total (a : BitmapAllocator) (s e : Nat) :
    (a.mark_region_free s e).1.total_frames = a.total_frames :=
  (markFreeLoop_shape _ a _ _ 0 le_rfl).1

theorem mark_region_free_len (a : BitmapAllocator) (s e : Nat) :
    (a.mark_region_free s e).1.bitmap.length = a.bitmap.length :=
  (markFreeLoop_shape _ a _ _ 0 le_rfl).2

theorem mark_region_reserved_total (a : BitmapAllocator) (s e : Nat) :
    (a.mark_region_reserved s e).total_frames = a.total_frames :=
  (markReservedLoop_shape _ a _ _ le_rfl).1

theorem mark_region_reserved_len (a : BitmapAllocator) (s e : Nat) :
    (a.mark_region_reserved s e).bitmap.length = a.bitmap.length :=
  (markReservedLoop_shape _ a _ _ le_rfl).2

theorem initFold_total (entries : List MemoryMapEntry) :
    ∀ acc : BitmapAllocator,
      (entries.foldl (fun acc e =>
        if MemoryType.from_u32 e.mem_type = some MemoryType.Available then
          (acc.mark_region_free e.base_addr ((e.base_addr + e.length) % USIZE)).1
        else acc) acc).total_frames = acc.total_frames := by
  induction entries with
  | nil => intro acc; rfl
  | cons e es ih =>
    intro acc
    rw [List.foldl_cons]
    by_cases hA : MemoryType.from_u32 e.mem_type = some MemoryType.Available
    · rw [if_pos hA, ih, mark_region_free_total]
    · rw [if_neg hA, ih]

theorem initFold_len (entries : List MemoryMapEntry) :
    ∀ acc : BitmapAllocator,
      (entries.foldl (fun acc e =>
        if MemoryType.from_u32 e.mem_type = some MemoryType.Available then
          (acc.mark_region_free e.base_addr ((e.base_addr + e.length) % USIZE)).1
        else acc) acc).bitmap.length = acc.bitmap.length := by
  induction entries with
  | nil => intro acc; rfl
  | cons e es ih =>
    intro acc
    rw [List.foldl_cons]
    by_cases hA : MemoryType.from_u32 e.mem_type = some MemoryType.Available
    · rw [if_pos hA, ih, mark_region_free_len]
    · rw [if_neg hA, ih]

/-- Updating the `free_frames` field preserves `Wf` (which only reads
`total_frames` and the bitmap length). -/
theorem wf_free_update (b : BitmapAllocator) (v : Nat) (h : Wf b) :
    Wf ({ b with free_frames := v } : BitmapAllocator) := h

/-- `init` leaves the counter invariant by construction: its final step
stores `count_free_frames()` into the counter. -/
theorem init_establishes_inv (self : BitmapAllocator) (entries : List MemoryMapEntry)
    (ks ke : Nat) :
    (self.init entries ks ke).free_frames = (self.init entries ks ke).count_free_frames := rfl

/-- `init` produces a well-formed allocator: the bitmap has
`⌈total_frames/8⌉` bytes and `total_frames ≤ 2^22` (16 GiB cap). -/
theorem init_wf (self : BitmapAllocator) (entries : List MemoryMapEntry) (ks ke : Nat) :
    Wf (self.init entries ks ke) := by
  unfold BitmapAllocator.init
  dsimp only
  apply wf_free_update
  generalize hv : entries.foldl (fun h e =>
    let end_addr := (e.base_addr + e.length) % USIZE
    if end_addr > h then end_addr else h) 0 = highest
  constructor
  · rw [mark_region_reserved_total, mark_region_reserved_total, initFold_total,
      mark_region_reserved_len, mark_region_reserved_len, initFold_len]
    dsimp only
    rw [List.length_replicate]
    omega
  · rw [mark_region_reserved_total, mark_region_reserved_total, initFold_total]
    dsimp only
    have hH : (if highest > MAX_PHYSICAL_MEMORY then MAX_PHYSICAL_MEMORY else highest) ≤
        MAX_PHYSICAL_MEMORY := by
      split <;> omega
    calc (if highest > MAX_PHYSICAL_MEMORY then MAX_PHYSICAL_MEMORY else highest) / PAGE_SIZE
        ≤ MAX_PHYSICAL_MEMORY / PAGE_SIZE := Nat.div_le_div_right hH
      _ < USIZE := by norm_num [MAX_PHYSICAL_MEMORY, PAGE_SIZE, USIZE]

/- Preservation of the counter invariant by the allocator operations. -/

/-- `count_free_frames` only reads the bitmap and `total_frames`. -/
theorem count_free_frames_congr (b c : BitmapAllocator) (hbit : c.bitmap = b.bitmap)
    (ht : c.total_frames = b.total_frames) :
    c.count_free_frames = b.count_free_frames := by
  unfold BitmapAllocator.count_free_frames BitmapAllocator.is_frame_free
  rw [hbit, ht]

/-- The counter invariant for a state that rewrites the counter and hint on
top of a marked bitmap. -/
theorem free_cnt_update (X : BitmapAllocator) (v w : Nat) (h : v = X.count_free_frames) :
    ({ X with free_frames := v, start_frame := w } : BitmapAllocator).free_frames =
      ({ X with free_frames := v, start_frame := w } : BitmapAllocator).count_free_frames := by
  have h1 : ({ X with free_frames := v, start_frame := w } : BitmapAllocator).free_frames = v := rfl
  have h2 : ({ X with free_frames := v, start_frame := w } : BitmapAllocator).count_free_frames =
      X.count_free_frames :=
    count_free_frames_congr X ({ X with free_frames := v, start_frame := w } : BitmapAllocator) rfl rfl
  rw [h1, h2, h]

/-- The counter invariant for a state that only rewrites the counter. -/
theorem free_cnt_update1 (X : BitmapAllocator) (v : Nat) (h : v = X.count_free_frames) :
    ({ X with free_frames := v } : BitmapAllocator).free_frames =
      ({ X with free_frames := v } : BitmapAllocator).count_free_frames := by
  have h1 : ({ X with free_frames := v } : BitmapAllocator).free_frames = v := rfl
  have h2 : ({ X with free_frames := v } : BitmapAllocator).count_free_frames =
      X.count_free_frames :=
    count_free_frames_congr X ({ X with free_frames := v } : BitmapAllocator) rfl rfl
  rw [h1, h2, h]

theorem alloc_state_inv (a : BitmapAllocator) (f : Nat) (hW : Wf a)
    (hI : a.free_frames = a.count_free_frames) (hf : a.is_frame_free f = true) :
    Wf ({ a.mark_frame_allocated f with
            free_frames := usizeSub a.free_frames 1, start_frame := f + 1 } : BitmapAllocator) ∧
    ({ a.mark_frame_allocated f with
        free_frames := usizeSub a.free_frames 1, start_frame := f + 1 } : BitmapAllocator).free_frames =
      ({ a.mark_frame_allocated f with
          free_frames := usizeSub a.free_frames 1, start_frame := f + 1 } : BitmapAllocator).count_free_frames := by
  obtain ⟨hW1, hW2⟩ := hW
  have hcount := BitmapAllocator.count_markAllocated a f hW1 hf
  have hle := BitmapAllocator.count_le_total a
  have hpos := BitmapAllocator.one_le_count a f hf
  constructor
  · constructor
    · show (a.mark_frame_allocated f).total_frames ≤ 8 * (a.mark_frame_allocated f).bitmap.length
      rw [BitmapAllocator.mark_frame_allocated_total, BitmapAllocator.mark_frame_allocated_len]
      exact hW1
    · show (a.mark_frame_allocated f).total_frames < USIZE
      rw [BitmapAllocator.mark_frame_allocated_total]
      exact hW2
  · apply free_cnt_update
    have h64 : USIZE = 18446744073709551616 := by norm_num [USIZE]
    rw [h64] at hW2
    simp only [usizeSub, h64]
    omega

theorem allocate_frame_inv (a : BitmapAllocator) (hW : Wf a)
    (hI : a.free_frames = a.count_free_frames) :
    Wf (a.allocate_frame).2 ∧
    (a.allocate_frame).2.free_frames = (a.allocate_frame).2.count_free_frames := by
  cases h1 : scanFree a a.start_frame a.total_frames with
  | some f =>
    have hs := scanFree_some a (a.total_frames - a.start_frame) _ _ f le_rfl h1
    have e : a.allocate_frame = (some (f * PAGE_SIZE),
        { a.mark_frame_allocated f with
            free_frames := usizeSub a.free_frames 1, start_frame := f + 1 }) := by
      unfold BitmapAllocator.allocate_frame
      rw [h1]
    rw [e]
    exact alloc_state_inv a f hW hI hs.2.2.1
  | none =>
    cases h2 : scanFree a 0 a.start_frame with
    | some f =>
      have hs := scanFree_some a (a.start_frame - 0) 0 _ f le_rfl h2
      have e : a.allocate_frame = (some (f * PAGE_SIZE),
          { a.mark_frame_allocated f with
              free_frames := usizeSub a.free_frames 1, start_frame := f + 1 }) := by
        unfold BitmapAllocator.allocate_frame
        rw [h1, h2]
      rw [e]
      exact alloc_state_inv a f hW hI hs.2.2.1
    | none =>
      have e : a.allocate_frame = (none, a) := by
        unfold BitmapAllocator.allocate_frame
        rw [h1, h2]
      rw [e]
      exact ⟨hW, hI⟩

theorem allocate_frames_inv (a : BitmapAllocator) (hW : Wf a)
    (hI : a.free_frames = a.count_free_frames) (n : Nat) :
    Wf (a.allocate_frames n).2 ∧
    (a.allocate_frames n).2.free_frames = (a.allocate_frames n).2.count_free_frames := by
  match n with
  | 0 => exact ⟨hW, hI⟩
  | 1 =>
    have e : a.allocate_frames 1 = a.allocate_frame := rfl
    rw [e]
    exact allocate_frame_inv a hW hI
  | m + 2 =>
    cases h : findRunAux a (m + 2) 0 0 0 with
    | none =>
      have e : a.allocate_frames (m + 2) = (none, a) := by
        unfold BitmapAllocator.allocate_frames
        rw [if_neg (by omega), if_neg (by omega), h]
      rw [e]
      exact ⟨hW, hI⟩
    | some s =>
      have hrun := (findRun_some_spec a (m + 2) s (by omega) h).1
      have e : a.allocate_frames (m + 2) = (some (s * PAGE_SIZE),
          { markAllocRange a s (m + 2) with
              free_frames := usizeSub a.free_frames (m + 2), start_frame := s + (m + 2) }) := by
        unfold BitmapAllocator.allocate_frames
        rw [if_neg (by omega), if_neg (by omega), h]
      rw [e]
      have hcnt := count_markAllocRange a s (m + 2) hW.1 hrun
      have hle := BitmapAllocator.count_le_total a
      constructor
      · constructor
        · show (markAllocRange a s (m + 2)).total_frames ≤
              8 * (markAllocRange a s (m + 2)).bitmap.length
          rw [markAllocRange_total, markAllocRange_len]
          exact hW.1
        · show (markAllocRange a s (m + 2)).total_frames < USIZE
          rw [markAllocRange_total]
          exact hW.2
      · apply free_cnt_update
        have h64 : USIZE = 18446744073709551616 := by norm_num [USIZE]
        have hW2 := hW.2
        rw [h64] at hW2
        simp only [usizeSub, h64]
        omega

theorem free_frame_inv (a : BitmapAllocator) (hW : Wf a)
    (hI : a.free_frames = a.count_free_frames) (addr : Nat) :
    Wf (a.free_frame addr) ∧
    (a.free_frame addr).free_frames = (a.free_frame addr).count_free_frames := by
  simp only [BitmapAllocator.free_frame]
  by_cases hc : addr / PAGE_SIZE < a.total_frames ∧
      a.is_frame_free (addr / PAGE_SIZE) = false
  · rw [if_pos hc]
    have hcnt := BitmapAllocator.count_markFree a (addr / PAGE_SIZE) hW.1 hc.1 hc.2
    have hle2 := BitmapAllocator.count_le_total (a.mark_frame_free (addr / PAGE_SIZE)).1
    rw [BitmapAllocator.mark_frame_free_total] at hle2
    have hWf1 : Wf ({ (a.mark_frame_free (addr / PAGE_SIZE)).1 with
        free_frames := usizeAdd a.free_frames 1 } : BitmapAllocator) := by
      constructor
      · show (a.mark_frame_free (addr / PAGE_SIZE)).1.total_frames ≤
            8 * (a.mark_frame_free (addr / PAGE_SIZE)).1.bitmap.length
        rw [BitmapAllocator.mark_frame_free_total, BitmapAllocator.mark_frame_free_len]
        exact hW.1
      · show (a.mark_frame_free (addr / PAGE_SIZE)).1.total_frames < USIZE
        rw [BitmapAllocator.mark_frame_free_total]
        exact hW.2
    have hInv1 : ({ (a.mark_frame_free (addr / PAGE_SIZE)).1 with
        free_frames := usizeAdd a.free_frames 1 } : BitmapAllocator).free_frames =
        ({ (a.mark_frame_free (addr / PAGE_SIZE)).1 with
            free_frames := usizeAdd a.free_frames 1 } : BitmapAllocator).count_free_frames := by
      apply free_cnt_update1
      have h64 : USIZE = 18446744073709551616 := by norm_num [USIZE]
      have hW2 := hW.2
      rw [h64] at hW2
      simp only [usizeAdd, h64]
      omega
    by_cases hs : addr / PAGE_SIZE < a.start_frame
    · rw [if_pos hs]
      exact ⟨hWf1, hInv1⟩
    · rw [if_neg hs]
      exact ⟨hWf1, hInv1⟩
  · rw [if_neg hc]
    exact ⟨hW, hI⟩

theorem freeFramesLoop_inv : ∀ (n : Nat) (a : BitmapAllocator) (frame : Nat),
    Wf a → a.free_frames = a.count_free_frames →
    Wf (freeFramesLoop a frame n) ∧
    (freeFramesLoop a frame n).free_frames = (freeFramesLoop a frame n).count_free_frames := by
  intro n
  induction n with
  | zero => intro a frame hW hI; exact ⟨hW, hI⟩
  | succ m ih =>
    intro a frame hW hI
    simp only [freeFramesLoop]
    by_cases hc : frame < a.total_frames ∧ a.is_frame_free frame = false
    · rw [if_pos hc]
      apply ih
      · constructor
        · show (a.mark_frame_free frame).1.total_frames ≤
              8 * (a.mark_frame_free frame).1.bitmap.length
          rw [BitmapAllocator.mark_frame_free_total, BitmapAllocator.mark_frame_free_len]
          exact hW.1
        · show (a.mark_frame_free frame).1.total_frames < USIZE
          rw [BitmapAllocator.mark_frame_free_total]
          exact hW.2
      · apply free_cnt_update1
        have hcnt := BitmapAllocator.count_markFree a frame hW.1 hc.1 hc.2
        have hle2 := BitmapAllocator.count_le_total (a.mark_frame_free frame).1
        rw [BitmapAllocator.mark_frame_free_total] at hle2
        have h64 : USIZE = 18446744073709551616 := by norm_num [USIZE]
        have hW2 := hW.2
        rw [h64] at hW2
        simp only [usizeAdd, h64]
        omega
    · rw [if_neg hc]
      exact ih a (frame + 1) hW hI

theorem freeFrames_inv (a : BitmapAllocator) (hW : Wf a)
    (hI : a.free_frames = a.count_free_frames) (addr n : Nat) :
    Wf (a.freeFrames addr n) ∧
    (a.freeFrames addr n).free_frames = (a.freeFrames addr n).count_free_frames := by
  simp only [BitmapAllocator.freeFrames]
  obtain ⟨hW1, hI1⟩ := freeFramesLoop_inv n a (addr / PAGE_SIZE) hW hI
  by_cases hs : addr / PAGE_SIZE < (freeFramesLoop a (addr / PAGE_SIZE) n).start_frame
  · rw [if_pos hs]
    exact ⟨hW1, hI1⟩
  · rw [if_neg hs]
    exact ⟨hW1, hI1⟩

/- ------------------------------------------------------------------ -/
/- Claim C2: the free counter equals the zero-bit count.              -/
/- ------------------------------------------------------------------ -/

/-- Claim C2: after `init` the counter `free_frames` equals
`count_free_frames` — the number of zero bits in the bitmap over
`[0, total_frames)` — and `init` establishes well-formedness (`Wf`:
the bitmap covers the tracked frames and the count fits a `usize`);
every subsequent operation (`allocate_frame`, `allocate_frames`,
`free_frame`, `free_frames`) preserves both. -/
theorem C2_free_count_invariant :
    (∀ (self : BitmapAllocator) (entries : List MemoryMapEntry) (ks ke : Nat),
      Wf (self.init entries ks ke) ∧
      (self.init entries ks ke).free_frames = (self.init entries ks ke).count_free_frames) ∧
    (∀ a : BitmapAllocator, Wf a → a.free_frames = a.count_free_frames →
      (Wf (a.allocate_frame).2 ∧
        (a.allocate_frame).2.free_frames = (a.allocate_frame).2.count_free_frames) ∧
      (∀ n, Wf (a.allocate_frames n).2 ∧
        (a.allocate_frames n).2.free_frames = (a.allocate_frames n).2.count_free_frames) ∧
      (∀ addr, Wf (a.free_frame addr) ∧
        (a.free_frame addr).free_frames = (a.free_frame addr).count_free_frames) ∧
      (∀ addr n, Wf (a.freeFrames addr n) ∧
        (a.freeFrames addr n).free_frames = (a.freeFrames addr n).count_free_frames)) := by
  constructor
  · intro self entries ks ke
    exact ⟨init_wf self entries ks ke, init_establishes_inv self entries ks ke⟩
  · intro a hW hI
    exact ⟨allocate_frame_inv a hW hI, fun n => allocate_frames_inv a hW hI n,
      fun addr => free_frame_inv a hW hI addr, fun addr n => freeFrames_inv a hW hI addr n⟩

/-- Claim C2, witness: a well-formed 8-frame allocator with frames 0..3
free; the invariant is preserved across `allocate_frame`. -/
theorem C2_witness :
    Wf (⟨[0xF0], 8, 4, 0⟩ : BitmapAllocator) ∧
    (⟨[0xF0], 8, 4, 0⟩ : BitmapAllocator).free_frames =
      (⟨[0xF0], 8, 4, 0⟩ : BitmapAllocator).count_free_frames ∧
    (Wf ((⟨[0xF0], 8, 4, 0⟩ : BitmapAllocator).allocate_frame).2 ∧
      ((⟨[0xF0], 8, 4, 0⟩ : BitmapAllocator).allocate_frame).2.free_frames =
        ((⟨[0xF0], 8, 4, 0⟩ : BitmapAllocator).allocate_frame).2.count_free_frames) :=
  ⟨⟨by decide, by decide⟩, by decide,
    (C2_free_count_invariant.2 (⟨[0xF0], 8, 4, 0⟩ : BitmapAllocator)
      ⟨by decide, by decide⟩ (by decide)).1⟩

/- ------------------------------------------------------------------ -/
/- Claim C3: allocate_frame is first-fit with one wrap-around pass.   -/
/- ------------------------------------------------------------------ -/

/-- Claim C3: `allocate_frame` scans first-fit from the hint
(`start_frame`); if that pass fails it wraps to 0 for one more pass up to
the hint.  On the first free frame `f` it sets the bit, decrements
`free_frames` by one (wrapping `usize` subtraction), sets the hint to
`f + 1` and returns `f * 4096`; if no free frame exists it returns `None`
with the state unchanged. -/
theorem C3_allocate_frame_first_fit :
    (∀ (a : BitmapAllocator) (f : Nat),
      a.start_frame ≤ f → f < a.total_frames → a.is_frame_free f = true →
      (∀ g, a.start_frame ≤ g → g < f → a.is_frame_free g = false) →
      a.allocate_frame = (some (f * PAGE_SIZE),
        { a.mark_frame_allocated f with
            free_frames := usizeSub a.free_frames 1, start_frame := f + 1 })) ∧
    (∀ (a : BitmapAllocator) (f : Nat),
      (∀ g, a.start_frame ≤ g → g < a.total_frames → a.is_frame_free g = false) →
      f < a.start_frame → a.is_frame_free f = true →
      (∀ g, g < f → a.is_frame_free g = false) →
      a.allocate_frame = (some (f * PAGE_SIZE),
        { a.mark_frame_allocated f with
            free_frames := usizeSub a.free_frames 1, start_frame := f + 1 })) ∧
    (∀ a : BitmapAllocator,
      (∀ g, a.is_frame_free g = false) →
      a.allocate_frame = (none, a)) := by
  refine ⟨?_, ?_, ?_⟩
  · intro a f h1 h2 h3 h4
    have hs := scanFree_eq_some a (a.total_frames - a.start_frame) a.start_frame
      a.total_frames f le_rfl h1 h2 h3 h4
    unfold BitmapAllocator.allocate_frame
    rw [hs]
  · intro a f h0 h1 h2 h3
    have hn := scanFree_none a (a.total_frames - a.start_frame) a.start_frame
      a.total_frames le_rfl h0
    have hs := scanFree_eq_some a (a.start_frame - 0) 0 a.start_frame f le_rfl
      (Nat.zero_le f) h1 h2 (fun g hg1 hg2 => h3 g hg2)
    unfold BitmapAllocator.allocate_frame
    rw [hn, hs]
  · intro a h
    have hn1 := scanFree_none a (a.total_frames - a.start_frame) a.start_frame
      a.total_frames le_rfl (fun g hg1 hg2 => h g)
    have hn2 := scanFree_none a (a.start_frame - 0) 0 a.start_frame le_rfl
      (fun g hg1 hg2 => h g)
    unfold BitmapAllocator.allocate_frame
    rw [hn1, hn2]

/-- Claim C3, witness: an 8-frame allocator with only frame 0 allocated
and hint 2: the first pass finds frame 2 at once. -/
theorem C3_witness :
    (⟨[0x01], 8, 7, 2⟩ : BitmapAllocator).start_frame ≤ 2 ∧
    2 < (⟨[0x01], 8, 7, 2⟩ : BitmapAllocator).total_frames ∧
    (⟨[0x01], 8, 7, 2⟩ : BitmapAllocator).is_frame_free 2 = true ∧
    (∀ g, (⟨[0x01], 8, 7, 2⟩ : BitmapAllocator).start_frame ≤ g → g < 2 →
      (⟨[0x01], 8, 7, 2⟩ : BitmapAllocator).is_frame_free g = false) ∧
    (⟨[0x01], 8, 7, 2⟩ : BitmapAllocator).allocate_frame =
      (some (2 * PAGE_SIZE),
        { (⟨[0x01], 8, 7, 2⟩ : BitmapAllocator).mark_frame_allocated 2 with
            free_frames := usizeSub (⟨[0x01], 8, 7, 2⟩ : BitmapAllocator).free_frames 1,
            start_frame := 2 + 1 }) :=
  ⟨by decide, by decide, by decide,
    fun g hg1 hg2 => absurd hg2 (Nat.not_lt.mpr (show 2 ≤ g from hg1)),
    C3_allocate_frame_first_fit.1 (⟨[0x01], 8, 7, 2⟩ : BitmapAllocator) 2
      (by decide) (by decide) (by decide)
      (fun g hg1 hg2 => absurd hg2 (Nat.not_lt.mpr (show 2 ≤ g from hg1)))⟩

/- ------------------------------------------------------------------ -/
/- Claim C4: allocate_frames and contiguous runs.                     -/
/- ------------------------------------------------------------------ -/

/-- Claim C4: `allocate_frames(n)` returns `None` for `n = 0`, behaves
exactly as `allocate_frame` for `n = 1`, and for `n ≥ 2` scans from frame 0
for the lowest-starting run of `n` consecutive free frames; on success it
sets all `n` bits, decrements `free_frames` by `n`, sets the hint to
`first + n` and returns `first * 4096`; when no run exists it returns
`None` with the state unchanged. -/
theorem C4_allocate_frames_runs :
    (∀ a : BitmapAllocator, a.allocate_frames 0 = (none, a)) ∧
    (∀ a : BitmapAllocator, a.allocate_frames 1 = a.allocate_frame) ∧
    (∀ (a : BitmapAllocator) (n s : Nat), 2 ≤ n → runFree a s n →
      (∀ t, t < s → ¬ runFree a t n) →
      a.allocate_frames n = (some (s * PAGE_SIZE),
        { markAllocRange a s n with
            free_frames := usizeSub a.free_frames n, start_frame := s + n })) ∧
    (∀ (a : BitmapAllocator) (n : Nat), 2 ≤ n → (∀ t, ¬ runFree a t n) →
      a.allocate_frames n = (none, a)) := by
  refine ⟨fun a => rfl, fun a => rfl, ?_, ?_⟩
  · intro a n s hn2 hrun hmin
    have h := findRun_eq_some a n s hn2 hrun hmin
    unfold BitmapAllocator.allocate_frames
    rw [if_neg (by omega), if_neg (by omega), h]
  · intro a n hn2 hnone
    have h : findRunAux a n 0 0 0 = none := by
      cases h2 : findRunAux a n 0 0 0 with
      | none => rfl
      | some s => exact absurd (findRun_some_spec a n s hn2 h2).1 (hnone s)
    unfold BitmapAllocator.allocate_frames
    rw [if_neg (by omega), if_neg (by omega), h]

/-- Claim C4, witness: frames 1 and 2 allocated in an 8-frame bitmap; the
lowest run of two free frames starts at 3. -/
theorem C4_witness :
    (2 : Nat) ≤ 2 ∧ runFree (⟨[0x06], 8, 6, 0⟩ : BitmapAllocator) 3 2 ∧
    (∀ t, t < 3 → ¬ runFree (⟨[0x06], 8, 6, 0⟩ : BitmapAllocator) t 2) ∧
    (⟨[0x06], 8, 6, 0⟩ : BitmapAllocator).allocate_frames 2 =
      (some (3 * PAGE_SIZE),
        { markAllocRange (⟨[0x06], 8, 6, 0⟩ : BitmapAllocator) 3 2 with
            free_frames := usizeSub (⟨[0x06], 8, 6, 0⟩ : BitmapAllocator).free_frames 2,
            start_frame := 3 + 2 }) :=
  ⟨by omega, by decide, by decide,
    C4_allocate_frames_runs.2.2.1 (⟨[0x06], 8, 6, 0⟩ : BitmapAllocator) 2 3
      (by omega) (by decide) (by decide)⟩

/- ------------------------------------------------------------------ -/
/- Claim C10: operations on an uninitialized allocator.               -/
/- ------------------------------------------------------------------ -/

/-- Claim C10: on an allocator fresh from `new()` (`total_frames = 0`,
empty bitmap), `allocate_frame` and every `allocate_frames(n)` return
`None` without touching the state, and `free_frame` / `free_frames` leave
the state (bitmap and counter) unchanged. -/
theorem C10_uninitialized_noop :
    BitmapAllocator.new.allocate_frame = (none, BitmapAllocator.new) ∧
    (∀ n, BitmapAllocator.new.allocate_frames n = (none, BitmapAllocator.new)) ∧
    (∀ addr, BitmapAllocator.new.free_frame addr = BitmapAllocator.new) ∧
    (∀ addr n, BitmapAllocator.new.freeFrames addr n = BitmapAllocator.new) := by
  have h1 : scanFree BitmapAllocator.new BitmapAllocator.new.start_frame
      BitmapAllocator.new.total_frames = none := by
    rw [scanFree, dif_neg (by decide :
      ¬ BitmapAllocator.new.start_frame < BitmapAllocator.new.total_frames)]
  have h2 : scanFree BitmapAllocator.new 0 BitmapAllocator.new.start_frame = none := by
    rw [scanFree, dif_neg (by decide : ¬ 0 < BitmapAllocator.new.start_frame)]
  have hAF : BitmapAllocator.new.allocate_frame = (none, BitmapAllocator.new) := by
    unfold BitmapAllocator.allocate_frame
    rw [h1, h2]
  refine ⟨hAF, ?_, ?_, ?_⟩
  · intro n
    match n with
    | 0 => rfl
    | 1 =>
      have e : BitmapAllocator.new.allocate_frames 1 = BitmapAllocator.new.allocate_frame := rfl
      rw [e, hAF]
    | m + 2 =>
      have hrun : findRunAux BitmapAllocator.new (m + 2) 0 0 0 = none := by
        rw [findRunAux, dif_neg (by decide : ¬ 0 < BitmapAllocator.new.total_frames)]
      unfold BitmapAllocator.allocate_frames
      rw [if_neg (by omega), if_neg (by omega), hrun]
  · intro addr
    simp only [BitmapAllocator.free_frame]
    rw [if_neg]
    rintro ⟨h, -⟩
    rw [show BitmapAllocator.new.total_frames = 0 from rfl] at h
    exact Nat.not_lt_zero _ h
  · intro addr n
    have hloop : ∀ k frame, freeFramesLoop BitmapAllocator.new frame k = BitmapAllocator.new := by
      intro k
      induction k with
      | zero => intro frame; rfl
      | succ m ih =>
        intro frame
        simp only [freeFramesLoop]
        rw [if_neg]
        · exact ih (frame + 1)
        · rintro ⟨h, -⟩
          rw [show BitmapAllocator.new.total_frames = 0 from rfl] at h
          omega
    simp only [BitmapAllocator.freeFrames]
    rw [hloop n (addr / PAGE_SIZE), if_neg]
    rintro h
    rw [show BitmapAllocator.new.start_frame = 0 from rfl] at h
    exact Nat.not_lt_zero _ h

/- ------------------------------------------------------------------ -/
/- mapper.rs: the 4-level page-table walker.                          -/
/- ------------------------------------------------------------------ -/

/-- `MapError` (mapper.rs).  Note: there is no `NotMapped` variant; the
code reuses `PageAlreadyMapped` for missing intermediate entries and for
unmapping an unused leaf. -/
inductive MapError where
  | PageAlreadyMapped
  | FrameAllocationFailed
  | ParentEntryHugePage
  | InvalidFlags
  deriving DecidableEq

/-- Modelled from the spec: the error taxonomy of spec.md §7, which lists
`NotMapped` as a kind distinct from `PageAlreadyMapped`.  Used only to
state the refinement comparison of claim C1. -/
inductive SpecMapErrorKind where
  | InvalidMagic
  | OutOfMemory
  | PageAlreadyMapped
  | NotMapped
  | ParentEntryHugePage
  | FrameAllocationFailed
  deriving DecidableEq

/-- Name-preserving refinement map from the code's `MapError` to the
spec's taxonomy (`InvalidFlags` is never produced and has no spec
counterpart). -/
def specKindOf : MapError → Option SpecMapErrorKind
  | .PageAlreadyMapped => some .PageAlreadyMapped
  | .FrameAllocationFailed => some .FrameAllocationFailed
  | .ParentEntryHugePage => some .ParentEntryHugePage
  | .InvalidFlags => none

/-- `Mapper` (mapper.rs): the borrowed PML4, physical memory holding the
lower-level tables (dereferenced through entry addresses), the frame
allocator `A` (abstract here: `unmap` never touches it), and a log of
`invlpg` flushes performed by `flush_page`. -/
structure Mapper (α : Type) where
  pml4 : PageTable
  mem : Nat → PageTable
  alloc : α
  flushes : List Nat

/-- `flush_page`: executes `invlpg` for the address; modelled as a log
append. -/
def flush_page {α : Type} (s : Mapper α) (addr : VirtAddr) : Mapper α :=
  { s with flushes := s.flushes ++ [addr.as_u64] }

/-- One iteration of the `for level in [Four, Three, Two]` loop shared by
`page_table_entry` and `page_table_entry_readonly`: missing PRESENT yields
`PageAlreadyMapped` (the variant the code reuses for a missing mapping),
HUGE_PAGE yields `ParentEntryHugePage`; otherwise the walk continues at
`entry.addr()` interpreted as the next table pointer. -/
def walkStep (e : PageTableEntry) : Except MapError Nat :=
  if !(e.flags.contains PageTableFlags.PRESENT) then Except.error MapError.PageAlreadyMapped
  else if e.flags.contains PageTableFlags.HUGE_PAGE then Except.error MapError.ParentEntryHugePage
  else Except.ok e.addr.as_u64

/-- The traversal common to `Mapper::page_table_entry` (mutable) and
`Mapper::page_table_entry_readonly`: levels 4, 3, 2 starting at the PML4,
returning the location of the leaf entry — the level-1 table's physical
address and the level-1 index. -/
def pageTableEntryLoc {α : Type} (s : Mapper α) (page : Page) :
    Except MapError (Nat × Nat) := do
  let addr := page.start_address
  let t3 ← walkStep (s.pml4.get (addr.page_table_index PageTableLevel.Four))
  let t2 ← walkStep ((s.mem t3).get (addr.page_table_index PageTableLevel.Three))
  let t1 ← walkStep ((s.mem t2).get (addr.page_table_index PageTableLevel.Two))
  pure (t1, addr.page_table_index PageTableLevel.One)

/-- `Mapper::page_table_entry_readonly`: the leaf entry itself. -/
def page_table_entry_readonly {α : Type} (s : Mapper α) (page : Page) :
    Except MapError PageTableEntry :=
  (pageTableEntryLoc s page).map (fun loc => (s.mem loc.1).get loc.2)

/-- `Mapper::translate`. -/
def translate {α : Type} (s : Mapper α) (addr : VirtAddr) : Option PhysAddr :=
  let page := Page.containing_address addr
  let offset := addr.page_offset
  match page_table_entry_readonly s page with
  | Except.ok entry =>
    if entry.is_unused then none
    else some (PhysAddr.new (entry.addr.as_u64 + offset))
  | Except.error _ => none

/-- Pointwise update of physical memory at one table address (the write
through the `&mut PageTableEntry` returned by `page_table_entry`). -/
def updateMem (m : Nat → PageTable) (a : Nat) (t : PageTable) : Nat → PageTable :=
  fun x => if x = a then t else m x

/-- `Mapper::unmap`: walk to the leaf; if unused return
`PageAlreadyMapped`; otherwise capture the frame, zero the entry
(`set_unused`), flush the TLB for the page start, and return the frame.
The allocator is never consulted. -/
def unmap {α : Type} (s : Mapper α) (page : Page) :
    Except MapError PhysFrame × Mapper α :=
  match pageTableEntryLoc s page with
  | Except.error e => (Except.error e, s)
  | Except.ok loc =>
    let entry := (s.mem loc.1).get loc.2
    if entry.is_unused then (Except.error MapError.PageAlreadyMapped, s)
    else
      let frame := entry.frame
      let s1 : Mapper α :=
        { s with mem := updateMem s.mem loc.1 ((s.mem loc.1).setEntry loc.2 PageTableEntry.new) }
      (Except.ok frame, flush_page s1 page.start_address)

/-- A page table whose entry 0 is `e` and whose other entries are unused
(for concrete walk scenarios). -/
def tableAt0 (e : PageTableEntry) : PageTable :=
  ⟨fun j => if j.val = 0 then e else PageTableEntry.new⟩

/-- Concrete physical memory: a 3-level chain of tables at 0x1000, 0x2000,
0x3000, with a used leaf (`0xAB003`: frame 0xAB000, PRESENT|WRITABLE). -/
def demoMem : Nat → PageTable := fun a =>
  if a = 0x1000 then tableAt0 ⟨0x2003⟩
  else if a = 0x2000 then tableAt0 ⟨0x3003⟩
  else if a = 0x3000 then tableAt0 ⟨0xAB003⟩
  else ⟨fun _ => PageTableEntry.new⟩

/-- Concrete mapper over `demoMem` whose PML4 entry 0 points at 0x1000. -/
def demoMapper : Mapper Unit :=
  { pml4 := tableAt0 ⟨0x1003⟩, mem := demoMem, alloc := (), flushes := [] }

/-- As `demoMem` but with the leaf entry unused. -/
def demoMemUnused : Nat → PageTable := fun a =>
  if a = 0x1000 then tableAt0 ⟨0x2003⟩
  else if a = 0x2000 then tableAt0 ⟨0x3003⟩
  else if a = 0x3000 then tableAt0 ⟨0⟩
  else ⟨fun _ => PageTableEntry.new⟩

/-- Concrete mapper with a successful walk and an unused leaf. -/
def demoMapperUnused : Mapper Unit :=
  { pml4 := tableAt0 ⟨0x1003⟩, mem := demoMemUnused, alloc := (), flushes := [] }

/- ------------------------------------------------------------------ -/
/- Claim C1: unmap semantics.                                         -/
/- ------------------------------------------------------------------ -/

/-- Claim C1, counterexample: on a mapper whose lookup walk succeeds and
whose leaf entry is unused, `unmap` returns `MapError::PageAlreadyMapped` —
the kind the spec's taxonomy calls `PageAlreadyMapped`, not the distinct
`NotMapped` kind the claim names (no `NotMapped` variant exists in the
code). -/
theorem C1_counterexample :
    (unmap demoMapperUnused (Page.containing_address (VirtAddr.new_unchecked 0x123))).1 =
      Except.error MapError.PageAlreadyMapped ∧
    specKindOf MapError.PageAlreadyMapped = some SpecMapErrorKind.PageAlreadyMapped ∧
    SpecMapErrorKind.PageAlreadyMapped ≠ SpecMapErrorKind.NotMapped := by
  refine ⟨rfl, rfl, by decide⟩

/-- Claim C1 (amended): for every page whose lookup walk through present,
non-huge intermediate entries succeeds at leaf location `loc`: if the leaf
entry is unused, `unmap` returns the error `PageAlreadyMapped` (the code
reuses this variant to signal "not mapped"; there is no `NotMapped`
variant) with the state unchanged; if the leaf is used, `unmap` returns
the physical frame stored in the leaf, zeroes the leaf entry, appends the
page's start address to the TLB-flush log, and leaves the allocator
untouched (the frame is not freed). -/
theorem C1_unmap_semantics :
    ∀ (α : Type) (s : Mapper α) (page : Page) (loc : Nat × Nat),
      pageTableEntryLoc s page = Except.ok loc →
      (((s.mem loc.1).get loc.2).is_unused = true →
        unmap s page = (Except.error MapError.PageAlreadyMapped, s)) ∧
      (((s.mem loc.1).get loc.2).is_unused = false →
        unmap s page =
          (Except.ok ((s.mem loc.1).get loc.2).frame,
            { s with
                mem := updateMem s.mem loc.1
                  ((s.mem loc.1).setEntry loc.2 PageTableEntry.new),
                flushes := s.flushes ++ [page.start_address.as_u64] }) ∧
        (unmap s page).2.alloc = s.alloc) := by
  intro α s page loc h
  constructor
  · intro hu
    unfold unmap
    rw [h]
    dsimp only
    rw [hu]
    rfl
  · intro hu
    have e : unmap s page =
        (Except.ok ((s.mem loc.1).get loc.2).frame,
          { s with
              mem := updateMem s.mem loc.1
                ((s.mem loc.1).setEntry loc.2 PageTableEntry.new),
              flushes := s.flushes ++ [page.start_address.as_u64] }) := by
      unfold unmap
      rw [h]
      dsimp only
      rw [hu]
      rfl
    exact ⟨e, by rw [e]⟩

/-- Claim C1, witness: the demo mapper with a used leaf at 0x3000[0]. -/
theorem C1_witness :
    pageTableEntryLoc demoMapper (Page.containing_address (VirtAddr.new_unchecked 0x123)) =
      Except.ok (0x3000, 0) ∧
    ((demoMapper.mem 0x3000).get 0).is_unused = false ∧
    (unmap demoMapper (Page.containing_address (VirtAddr.new_unchecked 0x123)) =
      (Except.ok ((demoMapper.mem 0x3000).get 0).frame,
        { demoMapper with
            mem := updateMem demoMapper.mem 0x3000
              ((demoMapper.mem 0x3000).setEntry 0 PageTableEntry.new),
            flushes := demoMapper.flushes ++
              [(Page.containing_address (VirtAddr.new_unchecked 0x123)).start_address.as_u64] }) ∧
      (unmap demoMapper (Page.containing_address (VirtAddr.new_unchecked 0x123))).2.alloc =
        demoMapper.alloc) :=
  ⟨rfl, rfl,
    (C1_unmap_semantics Unit demoMapper
      (Page.containing_address (VirtAddr.new_unchecked 0x123)) (0x3000, 0) rfl).2 rfl⟩

/- ------------------------------------------------------------------ -/
/- Claim C5: translate semantics.                                     -/
/- ------------------------------------------------------------------ -/

/-- Claim C5: `translate(v)` walks the containing page through levels
4, 3, 2; when every intermediate entry is present and non-huge it reaches
the leaf at location `loc`, and returns `Some(leaf.addr + v.page_offset())`
when the leaf is used, `None` when the leaf is unused; whenever the walk
fails (a missing intermediate PRESENT, or a HUGE_PAGE intermediate) it
returns `None`. -/
theorem C5_translate_semantics :
    (∀ (α : Type) (s : Mapper α) (v : VirtAddr) (loc : Nat × Nat),
      pageTableEntryLoc s (Page.containing_address v) = Except.ok loc →
      translate s v =
        (if ((s.mem loc.1).get loc.2).is_unused then none
         else some (PhysAddr.new (((s.mem loc.1).get loc.2).addr.as_u64 + v.page_offset)))) ∧
    (∀ (α : Type) (s : Mapper α) (v : VirtAddr) (err : MapError),
      pageTableEntryLoc s (Page.containing_address v) = Except.error err →
      translate s v = none) := by
  constructor
  · intro α s v loc h
    unfold translate page_table_entry_readonly
    dsimp only
    rw [h]
    rfl
  · intro α s v err h
    unfold translate page_table_entry_readonly
    dsimp only
    rw [h]
    rfl

/-- Claim C5, witness: the demo mapper translates 0x123 to
0xAB000 + 0x123, and the unused-leaf variant yields `None`. -/
theorem C5_witness :
    pageTableEntryLoc demoMapper (Page.containing_address (VirtAddr.new_unchecked 0x123)) =
      Except.ok (0x3000, 0) ∧
    translate demoMapper (VirtAddr.new_unchecked 0x123) =
      (if ((demoMapper.mem 0x3000).get 0).is_unused then none
       else some (PhysAddr.new (((demoMapper.mem 0x3000).get 0).addr.as_u64 +
         (VirtAddr.new_unchecked 0x123).page_offset))) :=
  ⟨rfl,
    C5_translate_semantics.1 Unit demoMapper (VirtAddr.new_unchecked 0x123) (0x3000, 0) rfl⟩

/- ------------------------------------------------------------------ -/
/- multiboot2.rs: the memory-map tag walk and entry iterator.         -/
/- ------------------------------------------------------------------ -/

/-- A byte read from firmware memory (reads normalize to `u8`). -/
def readU8 (m : Nat → Nat) (a : Nat) : Nat := m a % 256

/-- Little-endian `u32` read. -/
def readU32 (m : Nat → Nat) (a : Nat) : Nat :=
  readU8 m a + 256 * readU8 m (a + 1) + 65536 * readU8 m (a + 2) +
    16777216 * readU8 m (a + 3)

/-- Little-endian `u64` read. -/
def readU64 (m : Nat → Nat) (a : Nat) : Nat :=
  readU32 m a + 4294967296 * readU32 m (a + 4)

/-- The 24-byte copy `*(current as *const MemoryMapEntry)`. -/
def readEntry (m : Nat → Nat) (a : Nat) : MemoryMapEntry :=
  { base_addr := readU64 m a, length := readU64 m (a + 8),
    mem_type := readU32 m (a + 16), reserved := readU32 m (a + 20) }

/-- `MemoryMapIter` (multiboot2.rs): current cursor, end pointer, and the
per-entry stride taken from the tag's `entry_size`. -/
structure MemoryMapIter where
  current : Nat
  end_addr : Nat
  entry_size : Nat
  deriving DecidableEq

/-- `MemoryMapIter::next`: yields the entry at the cursor and advances by
`entry_size` bytes; `None` once the cursor reaches the end pointer. -/
def MemoryMapIter.next (m : Nat → Nat) (it : MemoryMapIter) :
    Option MemoryMapEntry × MemoryMapIter :=
  if it.current ≥ it.end_addr then (none, it)
  else (some (readEntry m it.current), { it with current := it.current + it.entry_size })

/-- `BootInfo` (multiboot2.rs). -/
structure BootInfo where
  addr : Nat
  deriving DecidableEq

/-- `BootInfo::total_size`: the `u32` at the blob's base. -/
def BootInfo.total_size (m : Nat → Nat) (b : BootInfo) : Nat := readU32 m b.addr

/-- The tag-walking `while` loop of `memory_map`, with fuel bounding the
number of tags visited.  `(x + 7) & !7` rounds up to a multiple of 8,
written `/ 8 * 8` after adding 7 (equal on every value below `2^64`; the
pointer additions cannot overflow for a blob whose `u32` sizes are
in-bounds). -/
def findMemoryMapTag (m : Nat → Nat) : Nat → Nat → Nat → Option MemoryMapIter
  | 0, _, _ => none
  | fuel + 1, current, endAddr =>
    if current < endAddr then
      let tagType := readU32 m current
      let tagSize := readU32 m (current + 4)
      if tagType = 0 then none
      else if tagType = 6 then
        let entry_size := readU32 m (current + 8)
        some { current := current + 16, end_addr := current + tagSize,
               entry_size := entry_size }
      else findMemoryMapTag m fuel ((current + tagSize + 7) / 8 * 8) endAddr
    else none

/-- `BootInfo::memory_map`: walk the tags from `addr + 8` up to
`addr + total_size`; the fuel `total_size` bounds the number of tags (each
well-formed tag advances the cursor by at least 8 bytes). -/
def BootInfo.memory_map (m : Nat → Nat) (b : BootInfo) : Option MemoryMapIter :=
  findMemoryMapTag m (b.total_size m) (b.addr + 8) (b.addr + b.total_size m)

/-- Concrete Multiboot2 blob: `total_size = 40`, one MemoryMap tag at
offset 8 with `size = 32` and `entry_size = 16 < 24`. -/
def memC8 : Nat → Nat := fun a =>
  [40, 0, 0, 0, 0, 0, 0, 0, 6, 0, 0, 0, 32, 0, 0, 0, 16, 0, 0, 0].getD a 0

/- ------------------------------------------------------------------ -/
/- Claim C8: entry_size is not validated.                             -/
/- ------------------------------------------------------------------ -/

/-- Claim C8, counterexample: a blob whose MemoryMap tag has
`entry_size = 16 < 24` is not rejected — `memory_map()` returns the
iterator over its entries. -/
theorem C8_counterexample :
    BootInfo.memory_map memC8 ⟨0⟩ = some ⟨24, 40, 16⟩ ∧ (16 : Nat) < 24 := by
  exact ⟨rfl, by omega⟩

/-- Claim C8 (amended): `memory_map` performs no `entry_size` validation.
Whenever the first tag of the blob is a MemoryMap tag (type 6) within the
blob bounds, even with `entry_size < 24`, it returns the iterator whose
cursor starts 16 bytes into the tag, whose end is `tag start + size`, and
whose stride is the stored `entry_size`. -/
theorem C8_no_entry_size_validation :
    ∀ (m : Nat → Nat) (b : BootInfo),
      readU32 m (b.addr + 8) = 6 →
      b.addr + 8 < b.addr + b.total_size m →
      readU32 m (b.addr + 16) < 24 →
      b.memory_map m =
        some ⟨b.addr + 8 + 16, b.addr + 8 + readU32 m (b.addr + 12),
          readU32 m (b.addr + 16)⟩ := by
  intro m b h6 hin hlt
  unfold BootInfo.memory_map
  obtain ⟨k, hk⟩ : ∃ k, b.total_size m = k + 1 := ⟨b.total_size m - 1, by omega⟩
  rw [hk]
  rw [findMemoryMapTag]
  rw [if_pos (by omega : b.addr + 8 < b.addr + (k + 1))]
  dsimp only
  rw [h6, show b.addr + 8 + 4 = b.addr + 12 by omega, show b.addr + 8 + 8 = b.addr + 16 by omega]
  norm_num

/-- Claim C8, witness: the amended statement at the concrete blob. -/
theorem C8_witness :
    readU32 memC8 (0 + 8) = 6 ∧
    0 + 8 < 0 + BootInfo.total_size memC8 ⟨0⟩ ∧
    readU32 memC8 (0 + 16) < 24 ∧
    BootInfo.memory_map memC8 ⟨0⟩ =
      some ⟨0 + 8 + 16, 0 + 8 + readU32 memC8 (0 + 12), readU32 memC8 (0 + 16)⟩ :=
  ⟨by decide, by decide, by decide,
    C8_no_entry_size_validation memC8 ⟨0⟩ (by decide) (by decide) (by decide)⟩

/- ------------------------------------------------------------------ -/
/- Claim C9: entry_size = 0 never terminates.                         -/
/- ------------------------------------------------------------------ -/

/-- Claim C9: for an iterator with `entry_size = 0` over a nonempty entry
range, the cursor never advances: after any number `n` of `next()` calls
the state is unchanged and the next call still returns `some` of the same
first entry, so iteration never terminates; termination requires
`entry_size > 0`. -/
theorem C9_zero_stride_never_terminates :
    ∀ (m : Nat → Nat) (it : MemoryMapIter),
      it.entry_size = 0 → it.current < it.end_addr →
      ∀ n, (fun t => (MemoryMapIter.next m t).2)^[n] it = it ∧
        (MemoryMapIter.next m ((fun t => (MemoryMapIter.next m t).2)^[n] it)).1 =
          some (readEntry m it.current) := by
  intro m it h0 hlt
  have hstep : MemoryMapIter.next m it = (some (readEntry m it.current), it) := by
    unfold MemoryMapIter.next
    rw [if_neg (by omega : ¬ it.current ≥ it.end_addr)]
    rw [show it.current + it.entry_size = it.current from by omega]
  intro n
  induction n with
  | zero =>
    refine ⟨rfl, ?_⟩
    rw [Function.iterate_zero_apply, hstep]
  | succ k ih =>
    have h1 : (fun t => (MemoryMapIter.next m t).2)^[k + 1] it = it := by
      rw [Function.iterate_succ_apply, hstep]
      exact ih.1
    refine ⟨h1, ?_⟩
    rw [h1, hstep]

/-- Claim C9, witness: the zero-stride iterator over the concrete blob,
after three steps. -/
theorem C9_witness :
    (⟨24, 40, 0⟩ : MemoryMapIter).entry_size = 0 ∧
    (⟨24, 40, 0⟩ : MemoryMapIter).current < (⟨24, 40, 0⟩ : MemoryMapIter).end_addr ∧
    ((fun t => (MemoryMapIter.next memC8 t).2)^[3] (⟨24, 40, 0⟩ : MemoryMapIter) =
        (⟨24, 40, 0⟩ : MemoryMapIter) ∧
      (MemoryMapIter.next memC8
          ((fun t => (MemoryMapIter.next memC8 t).2)^[3] (⟨24, 40, 0⟩ : MemoryMapIter))).1 =
        some (readEntry memC8 24)) :=
  ⟨rfl, by decide,
    C9_zero_stride_never_terminates memC8 (⟨24, 40, 0⟩ : MemoryMapIter) rfl (by decide) 3⟩

end NoodleOS
